import Mathlib

/-!
# qri: namespace aggregation, the info command and profile requests

A shallow embedding of `cmd/namespace.go`, `cmd/info.go` and `core/profile.go`.
Go methods returning `(value, error)` become functions into `Except`, loops
become structural recursion over the slice, and calls that leave the code under
study (namespace sources, the rpc client, the store, the configuration) are
taken as parameters.
-/

set_option autoImplicit false
set_option linter.dupNamespace false

namespace Qri

/-! ## Error values -/

/-- An error value that reaches the code from outside it: the package-level
sentinel `namespace.ErrNotFound`, or any other value, named by its message. -/
inductive ExtError where
  | ErrNotFound
  | other (msg : String)
deriving DecidableEq, Repr

/-- An error value returned by the code of package `cmd`: either a value it
received and passes on, or a value it allocates itself with `fmt.Errorf`. A
value allocated by `fmt.Errorf` is a fresh pointer, equal to no value a callee
returned. -/
inductive Error where
  | ext (e : ExtError)
  | errorf (msg : String)
deriving DecidableEq, Repr

/-- The sentinel `namespace.ErrNotFound` as returned by `Namespaces`. -/
def ErrNotFound : Error := Error.ext ExtError.ErrNotFound

/-! ## External types -/

namespace dataset

/-- The type `dataset.Address`, a string type. -/
abbrev Address := String

/-- The method `Address.String`. -/
def Address.String (a : Address) : String := a

/-- The type `dataset.Dataset`; the code only moves pointers to it around, and a
value here stands for such a pointer. -/
structure Dataset where
  ref : String
deriving DecidableEq, Repr

end dataset

namespace fs

/-- The interface `fs.Store`; a value stands for a store handle. -/
structure Store where
  ref : String
deriving DecidableEq, Repr

end fs

/-- The type `namespace.Addresses`. -/
structure Addresses where
  ref : String
deriving DecidableEq, Repr

/-- The type `namespace.Datasets`. -/
structure Datasets where
  ref : String
deriving DecidableEq, Repr

/-- The interface `io.ReaderAt`; a value stands for a reader handle. -/
structure ReaderAt where
  ref : String
deriving DecidableEq, Repr

/-- A value of the interface `namespace.Namespace`: its methods, and what the
two type assertions of `namespace.go` find out about its dynamic type.
`lns` is `some f` exactly when the dynamic type is `*lns.Namespace`, `f` being
that type's `Store` method. `Search` is `some f` exactly when the value
implements `namespace.SearchableNamespace`, `f query limit offset` being
`namespace.ReadAllDatasets(s.Search(query, limit, offset))`. -/
structure Namespace where
  ChildAddresses : dataset.Address → Except ExtError Addresses
  ChildDatasets : dataset.Address → Except ExtError Datasets
  Dataset : dataset.Address → Except ExtError dataset.Dataset
  Package : dataset.Address → Except ExtError (ReaderAt × Int)
  lns : Option (dataset.Address → Except ExtError fs.Store)
  Search : Option (String → Int → Int → Except ExtError (List dataset.Dataset))

/-! ## cmd/namespace.go -/

namespace cmd

/-- The type `Namespaces`: a slice of namespaces, queried in order. -/
abbrev Namespaces := List Namespace

/-- The method `Namespaces.ChildAddresses` (namespace.go 101-108). -/
def Namespaces.ChildAddresses : Namespaces → dataset.Address → Except Error Addresses
  | [], _ => Except.error ErrNotFound
  | ns :: rest, adr =>
    match ns.ChildAddresses adr with
    | Except.ok ds => Except.ok ds
    | Except.error _ => Namespaces.ChildAddresses rest adr

/-- The method `Namespaces.ChildDatasets` (namespace.go 110-117). -/
def Namespaces.ChildDatasets : Namespaces → dataset.Address → Except Error Datasets
  | [], _ => Except.error ErrNotFound
  | ns :: rest, adr =>
    match ns.ChildDatasets adr with
    | Except.ok ds => Except.ok ds
    | Except.error _ => Namespaces.ChildDatasets rest adr

/-- The method `Namespaces.Dataset` (namespace.go 119-126). -/
def Namespaces.Dataset : Namespaces → dataset.Address → Except Error dataset.Dataset
  | [], _ => Except.error ErrNotFound
  | ns :: rest, adr =>
    match ns.Dataset adr with
    | Except.ok ds => Except.ok ds
    | Except.error _ => Namespaces.Dataset rest adr

/-- The method `Namespaces.Package` (namespace.go 128-136). -/
def Namespaces.Package : Namespaces → dataset.Address → Except Error (ReaderAt × Int)
  | [], _ => Except.error ErrNotFound
  | ns :: rest, adr =>
    match ns.Package adr with
    | Except.ok (ds, size) => Except.ok (ds, size)
    | Except.error _ => Namespaces.Package rest adr

/-- The method `Namespaces.Store` (namespace.go 138-156). The function
`downloadPackage` of package `cmd` is a parameter. -/
def Namespaces.Store
    (downloadPackage : Namespace → dataset.Address → String → Except Error fs.Store) :
    Namespaces → dataset.Address → Except Error fs.Store
  | [], _ => Except.error ErrNotFound
  | ns :: rest, adr =>
    match ns.Dataset adr with
    | Except.ok _ =>
      match ns.lns with
      | some lcl =>
        match lcl adr with
        | Except.ok store => Except.ok store
        | Except.error err => Except.error (Error.ext err)
      | none =>
        match downloadPackage ns adr (dataset.Address.String adr) with
        | Except.error err => Except.error err
        | Except.ok store => Except.ok store
    | Except.error _ => Namespaces.Store downloadPackage rest adr

/-- The error of namespace.go line 163. -/
def errNoNamespaces : Error := Error.errorf "no namespaces available for search!"

/-- The error of namespace.go line 178. -/
def errNotSearchable : Error := Error.errorf "none of your namespaces are searchable!"

/-- The loop of `Namespaces.Search` (namespace.go 166-175), started with the
current `found` and `results`. `Sum.inl` is the early return of line 171 with
its two values; `Sum.inr` is the normal end of the loop with the final `found`
and `results`. -/
def Namespaces.Search.loop (query : String) :
    List Namespace → Bool → List dataset.Dataset →
      (List dataset.Dataset × ExtError) ⊕ (Bool × List dataset.Dataset)
  | [], found, results => Sum.inr (found, results)
  | n :: rest, found, results =>
    match n.Search with
    | some s =>
      match s query (-1) 0 with
      | Except.error err => Sum.inl (results, err)
      | Except.ok ds => Namespaces.Search.loop query rest true (results ++ ds)
    | none => Namespaces.Search.loop query rest found results

/-- The method `Namespaces.Search` (namespace.go 158-182). The result is the
pair Go returns: the slice (`none` for `nil`) and the error (`none` for `nil`). -/
def Namespaces.Search (ns : Namespaces) (query : String) :
    Option (List dataset.Dataset) × Option Error :=
  if ns.length = 0 then
    (none, some errNoNamespaces)
  else
    match Namespaces.Search.loop query ns false [] with
    | Sum.inl (results, err) => (some results, some (Error.ext err))
    | Sum.inr (found, results) =>
      if !found then (none, some errNotSearchable) else (some results, none)

/-- What one source adds to the results of a search, in the words of the
specification: the results of its own search when it is searchable and that
search succeeds, nothing otherwise. -/
def searchResults (query : String) (s : Namespace) : List dataset.Dataset :=
  match s.Search with
  | some f =>
    match f query (-1) 0 with
    | Except.ok ds => ds
    | Except.error _ => []
  | none => []

end cmd

/-! ## cmd/info.go -/

namespace repo

/-- The interface `repo.Repo`; a value stands for a repository handle, `nil`
being `none` where the code tests for it. -/
structure Repo where
  ref : String
deriving DecidableEq, Repr

/-- Modelled from the spec: the type `repo.DatasetRef`, whose declaration is not
among the sources; the fields are those of the data model,
`{Peername, ProfileID, Name, Path, Dataset}`, `Path` being empty while the
reference is unresolved. -/
structure DatasetRef where
  Peername : String
  ProfileID : String
  Name : String
  Path : String
  Dataset : Option dataset.Dataset
deriving DecidableEq, Repr

end repo

namespace dataset

/-- The type `dataset.DataFormat`, an integer type. -/
abbrev DataFormat := Int

end dataset

namespace cmd

/-- What `infoCmd.Run` calls outside `info.go`: functions of other packages and
of other files of package `cmd`, and the constructors of the two request
objects, of types `PR` and `DR`. An `Except.error` of `getRepo`, `peerRequests`
or `datasetRequests` is an error on which the process exits. -/
structure InfoEnv (PR DR : Type) where
  ParseDataFormatString : String → Except ExtError dataset.DataFormat
  JSONDataFormat : dataset.DataFormat
  getRepo : Bool → Except Error repo.Repo
  ParseDatasetRef : String → Except ExtError repo.DatasetRef
  CanonicalizeDatasetRef : repo.Repo → repo.DatasetRef → repo.DatasetRef × Option ExtError
  peerRequests : Bool → Except ExtError PR
  datasetRequests : Bool → Except ExtError DR

/-- The check of the `format` flag in `infoCmd.Run` (info.go 31-40): `none` when
the run goes on, `some err` when `ErrExit(err)` ends the process. -/
def infoCmd.Run.checkFormat {PR DR : Type} (env : InfoEnv PR DR) (outformat : String) :
    Option Error :=
  if outformat ≠ "" then
    match env.ParseDataFormatString outformat with
    | Except.error _ => some (Error.errorf ("invalid data format: " ++ outformat))
    | Except.ok format =>
      if format ≠ env.JSONDataFormat then
        some (Error.errorf "invalid data format. currently only json or plaintext are supported")
      else none
  else none

/-- The first loop of `infoCmd.Run` (info.go 45-53), started with the current
value of `online`: the value of `online` after the loop, or the error on which
`ExitIfErr` ends the process. -/
def infoCmd.Run.online {PR DR : Type} (env : InfoEnv PR DR) (r : repo.Repo) :
    List String → Bool → Except Error Bool
  | [], online => Except.ok online
  | arg :: rest, online =>
    match env.ParseDatasetRef arg with
    | Except.error err => Except.error (Error.ext err)
    | Except.ok ref =>
      match env.CanonicalizeDatasetRef r ref with
      | (_, some err) => Except.error (Error.ext err)
      | (ref, none) =>
        infoCmd.Run.online env r rest (if ref.Path = "" then true else online)

/-- The function `infoCmd.Run` up to the construction of the two request
objects (info.go 31-59): the pair `(pr, req)` with which the output loop of
lines 61-98 starts, or the error on which the process exits. -/
def infoCmd.Run {PR DR : Type} (env : InfoEnv PR DR) (outformat : String)
    (args : List String) : Except Error (PR × DR) :=
  match infoCmd.Run.checkFormat env outformat with
  | some err => Except.error err
  | none =>
    match env.getRepo false with
    | Except.error err => Except.error err
    | Except.ok r =>
      match infoCmd.Run.online env r args false with
      | Except.error err => Except.error err
      | Except.ok online =>
        match env.peerRequests online with
        | Except.error err => Except.error (Error.ext err)
        | Except.ok pr =>
          match env.datasetRequests online with
          | Except.error err => Except.error (Error.ext err)
          | Except.ok req => Except.ok (pr, req)

/-- Whether an argument needs the network, in the words of the specification:
the reference it parses to canonicalizes to an empty `Path`. -/
def canonicalizesToEmptyPath {PR DR : Type} (env : InfoEnv PR DR) (r : repo.Repo)
    (arg : String) : Bool :=
  match env.ParseDatasetRef arg with
  | Except.ok ref => decide ((env.CanonicalizeDatasetRef r ref).1.Path = "")
  | Except.error _ => false

end cmd

/-! ## core/profile.go -/

namespace rpc

/-- The type `rpc.Client`; a value stands for a client handle. -/
structure Client where
  ref : String
deriving DecidableEq, Repr

end rpc

namespace profile

/-- The type `profile.Profile` of package `repo/profile`, as far as
`profile.go` reads it: `ID`, `Thumb`, `Profile` and `Poster` are held by the
text their `String` method renders, `Created`, `Updated` and `Type` by a
number. -/
structure Profile where
  ID : String
  Created : Int
  Updated : Int
  Peername : String
  «Type» : Int
  Email : String
  Name : String
  Description : String
  HomeURL : String
  Color : String
  Thumb : String
  Profile : String
  Poster : String
  Twitter : String
deriving DecidableEq, Repr

end profile

namespace core

/-- An error value of package `core`, held by its message: the message is all
that `profile.go` reads of an error and all that an rpc round trip carries. -/
abbrev error := String

/-- The type `ProfileRequests` (profile.go 21-24); `none` is `nil`. -/
structure ProfileRequests where
  repo : Option repo.Repo
  cli : Option rpc.Client
deriving DecidableEq, Repr

/-- The function `NewProfileRequests` (profile.go 31-40). `Except.error v` is
`panic(v)`: the call does not return. -/
def NewProfileRequests (r : Option repo.Repo) (cli : Option rpc.Client) :
    Except error ProfileRequests :=
  if r ≠ none ∧ cli ≠ none then
    Except.error "both repo and client supplied to NewProfileRequests"
  else
    Except.ok { repo := r, cli := cli }

/-- The type `core.Profile` (profile.go 43-58); `Created` and `Updated`
(`time.Time`) and `Type` (`profile.Type`) are held by a number. -/
structure Profile where
  ID : String
  Created : Int
  Updated : Int
  Peername : String
  «Type» : Int
  Email : String
  Name : String
  Description : String
  HomeURL : String
  Color : String
  Thumb : String
  Profile : String
  Poster : String
  Twitter : String
deriving DecidableEq, Repr

/-- An `io.Reader`, held by what `ioutil.ReadAll` returns from it. -/
structure Reader where
  data : List UInt8
  err : Option error
deriving DecidableEq, Repr

/-- The type `FileParams` (profile.go 275-279); a `nil` `Data` is `none`. -/
structure FileParams where
  Filename : String
  Data : Option Reader
deriving DecidableEq, Repr

/-- The parameter of an rpc call, one form for each parameter type of the
methods of `ProfileRequests`; a `nil` pointer is `none`. -/
inductive Args where
  | bool (p : Option Bool)
  | profile (p : Option Profile)
  | file (p : Option FileParams)
deriving DecidableEq, Repr

/-- One access of `profile.go` to something outside the call: the rpc client,
the repository and its store, or the process-wide `Config`. -/
inductive Effect where
  | Call (cli : rpc.Client) (serviceMethod : String) (args : Args) (reply : Profile)
  | RepoProfile (r : repo.Repo)
  | StorePut (r : repo.Repo) (filename : String) (data : List UInt8) (pin : Bool)
  | ConfigSet (key : String) (value : String)
  | DecodeProfile
  | SaveConfig
deriving DecidableEq, Repr

/-- The accesses made so far, oldest first. -/
abbrev World := List Effect

/-- What the code called from `profile.go` answers, given the accesses made
before the call: `rpc.Client.Call` (the reply written and the error),
`repo.Repo.Profile`, `Store().Put` (the text of the path), `Config.Profile.
DecodeProfile`, `SaveConfig`, and the library functions `json.Marshal`,
`json.Unmarshal` and `http.DetectContentType`. -/
structure Env where
  Call : World → rpc.Client → String → Args → Profile → Profile × Option error
  RepoProfile : World → repo.Repo → Except error profile.Profile
  StorePut : World → repo.Repo → String → List UInt8 → Bool → Except error String
  DecodeProfile : World → Except error profile.Profile
  SaveConfig : World → Option error
  jsonMarshal : profile.Profile → Except error (List UInt8)
  jsonUnmarshal : List UInt8 → Except error Profile
  DetectContentType : List UInt8 → String

/-- How a method call ends: it returns, leaving `res` in `*res`, `err` as the
error and `world` as the accesses made, or it stops on a nil dereference. -/
inductive Outcome where
  | returned (res : Profile) (err : Option error) (world : World)
  | nilDeref (world : World)
deriving DecidableEq, Repr

/-- The function `marshalProfile` (profile.go 79-94). -/
def marshalProfile (env : Env) (p : profile.Profile) : Except error Profile :=
  match env.jsonMarshal p with
  | Except.error err => Except.error ("err re-encoding json: " ++ err)
  | Except.ok data =>
    match env.jsonUnmarshal data with
    | Except.error err => Except.error ("error unmarshaling json: " ++ err)
    | Except.ok _p => Except.ok _p

/-- The method `ProfileRequests.GetProfile` (profile.go 97-115). -/
def ProfileRequests.GetProfile (env : Env) (r : ProfileRequests) (inp : Option Bool)
    (res : Profile) (w : World) : Outcome :=
  match r.cli with
  | some cli =>
    let reply := env.Call w cli "ProfileRequests.GetProfile" (Args.bool inp) res
    Outcome.returned reply.1 reply.2
      (w ++ [Effect.Call cli "ProfileRequests.GetProfile" (Args.bool inp) res])
  | none =>
    match r.repo with
    | none => Outcome.nilDeref w
    | some rp =>
      match env.RepoProfile w rp with
      | Except.error err => Outcome.returned res (some err) (w ++ [Effect.RepoProfile rp])
      | Except.ok profile =>
        match marshalProfile env profile with
        | Except.error err => Outcome.returned res (some err) (w ++ [Effect.RepoProfile rp])
        | Except.ok _p => Outcome.returned _p none (w ++ [Effect.RepoProfile rp])

/-- The method `ProfileRequests.SavePeername` (profile.go 209-219). -/
def ProfileRequests.SavePeername (env : Env) (_r : ProfileRequests) (p : Option Profile)
    (res : Profile) (w : World) : Outcome :=
  match p with
  | none => Outcome.returned res (some "profile required to save peername") w
  | some p =>
    if p.Peername = "" then
      Outcome.returned res (some "peername required") w
    else
      let w1 := w ++ [Effect.ConfigSet "profile.peername" p.Peername]
      Outcome.returned res (env.SaveConfig w1) (w1 ++ [Effect.SaveConfig])

/-- The six conditional `Config.Set` calls of `SaveProfile` (profile.go
230-247), in order. -/
def ProfileRequests.SaveProfile.sets (p : Profile) : World :=
  (if p.Name ≠ "" then [Effect.ConfigSet "profile.name" p.Name] else []) ++
  (if p.Email ≠ "" then [Effect.ConfigSet "profile.email" p.Email] else []) ++
  (if p.Description ≠ "" then [Effect.ConfigSet "profile.description" p.Description] else []) ++
  (if p.HomeURL ≠ "" then [Effect.ConfigSet "profile.homeurl" p.HomeURL] else []) ++
  (if p.Color ≠ "" then [Effect.ConfigSet "profile.color" p.Color] else []) ++
  (if p.Twitter ≠ "" then [Effect.ConfigSet "profile.twitter" p.Twitter] else [])

/-- The method `ProfileRequests.SaveProfile` (profile.go 222-272). -/
def ProfileRequests.SaveProfile (env : Env) (r : ProfileRequests) (p : Option Profile)
    (res : Profile) (w : World) : Outcome :=
  match r.cli with
  | some cli =>
    let reply := env.Call w cli "ProfileRequests.SaveProfile" (Args.profile p) res
    Outcome.returned reply.1 reply.2
      (w ++ [Effect.Call cli "ProfileRequests.SaveProfile" (Args.profile p) res])
  | none =>
    match p with
    | none => Outcome.returned res (some "profile required for update") w
    | some p =>
      let w1 := w ++ ProfileRequests.SaveProfile.sets p
      match env.DecodeProfile w1 with
      | Except.error err => Outcome.returned res (some err) (w1 ++ [Effect.DecodeProfile])
      | Except.ok resp =>
        let w2 := w1 ++ [Effect.DecodeProfile]
        Outcome.returned
          { ID := resp.ID, Created := resp.Created, Updated := resp.Updated,
            Peername := resp.Peername, «Type» := resp.«Type», Email := resp.Email,
            Name := resp.Name, Description := resp.Description, HomeURL := resp.HomeURL,
            Color := resp.Color, Thumb := resp.Thumb, Profile := resp.Profile,
            Poster := resp.Poster, Twitter := resp.Twitter }
          (env.SaveConfig w2) (w2 ++ [Effect.SaveConfig])

/-- The method `ProfileRequests.SetProfilePhoto` (profile.go 282-318). -/
def ProfileRequests.SetProfilePhoto (env : Env) (r : ProfileRequests) (p : Option FileParams)
    (res : Profile) (w : World) : Outcome :=
  match r.cli with
  | some cli =>
    let reply := env.Call w cli "ProfileRequests.SetProfilePhoto" (Args.file p) res
    Outcome.returned reply.1 reply.2
      (w ++ [Effect.Call cli "ProfileRequests.SetProfilePhoto" (Args.file p) res])
  | none =>
    match p with
    | none => Outcome.nilDeref w
    | some p =>
      match p.Data with
      | none => Outcome.returned res (some "file is required") w
      | some rd =>
        match rd.err with
        | some err => Outcome.returned res (some ("error reading file data: " ++ err)) w
        | none =>
          let data := rd.data
          let mimetype := env.DetectContentType data
          if mimetype ≠ "image/jpeg" ∧ mimetype ≠ "image/png" then
            Outcome.returned res
              (some "invalid file format. only .jpg & .png images allowed") w
          else if data.length > 250000 then
            Outcome.returned res (some "file size too large. max size is 250kb") w
          else
            match r.repo with
            | none => Outcome.nilDeref w
            | some rp =>
              let w1 := w ++ [Effect.StorePut rp p.Filename data true]
              match env.StorePut w rp p.Filename data true with
              | Except.error err =>
                Outcome.returned res (some ("error saving photo: " ++ err)) w1
              | Except.ok path =>
                let w2 := w1 ++ [Effect.ConfigSet "profile.photo" path,
                  Effect.ConfigSet "profile.thumb" path]
                Outcome.returned { res with Profile := path, Thumb := path }
                  (env.SaveConfig w2) (w2 ++ [Effect.SaveConfig])

/-- The method `ProfileRequests.SetPosterPhoto` (profile.go 321-354). -/
def ProfileRequests.SetPosterPhoto (env : Env) (r : ProfileRequests) (p : Option FileParams)
    (res : Profile) (w : World) : Outcome :=
  match r.cli with
  | some cli =>
    let reply := env.Call w cli "ProfileRequests.SetPosterPhoto" (Args.file p) res
    Outcome.returned reply.1 reply.2
      (w ++ [Effect.Call cli "ProfileRequests.SetPosterPhoto" (Args.file p) res])
  | none =>
    match p with
    | none => Outcome.nilDeref w
    | some p =>
      match p.Data with
      | none => Outcome.returned res (some "file is required") w
      | some rd =>
        match rd.err with
        | some err => Outcome.returned res (some ("error reading file data: " ++ err)) w
        | none =>
          let data := rd.data
          let mimetype := env.DetectContentType data
          if mimetype ≠ "image/jpeg" ∧ mimetype ≠ "image/png" then
            Outcome.returned res
              (some "invalid file format. only .jpg & .png images allowed") w
          else if data.length > 2000000 then
            Outcome.returned res (some "file size too large. max size is 2Mb") w
          else
            match r.repo with
            | none => Outcome.nilDeref w
            | some rp =>
              let w1 := w ++ [Effect.StorePut rp p.Filename data true]
              match env.StorePut w rp p.Filename data true with
              | Except.error err =>
                Outcome.returned res (some ("error saving photo: " ++ err)) w1
              | Except.ok path =>
                let w2 := w1 ++ [Effect.ConfigSet "profile.poster" path]
                Outcome.returned { res with Poster := path }
                  (env.SaveConfig w2) (w2 ++ [Effect.SaveConfig])

/-- The body of the loop of `AssignEditable` for an argument `pf` that is not
`nil` (profile.go 135-164): ten conditional assignments, each to a field of its
own, so that each editable field of the receiver takes the value of `pf` when
that value is not empty and keeps its own value otherwise; no other field is
assigned. -/
def Profile.AssignEditable.assign (p pf : core.Profile) : core.Profile :=
  { ID := p.ID
    Created := p.Created
    Updated := p.Updated
    Peername := if pf.Peername ≠ "" then pf.Peername else p.Peername
    «Type» := p.«Type»
    Email := if pf.Email ≠ "" then pf.Email else p.Email
    Name := if pf.Name ≠ "" then pf.Name else p.Name
    Description := if pf.Description ≠ "" then pf.Description else p.Description
    HomeURL := if pf.HomeURL ≠ "" then pf.HomeURL else p.HomeURL
    Color := if pf.Color ≠ "" then pf.Color else p.Color
    Thumb := if pf.Thumb ≠ "" then pf.Thumb else p.Thumb
    Profile := if pf.Profile ≠ "" then pf.Profile else p.Profile
    Poster := if pf.Poster ≠ "" then pf.Poster else p.Poster
    Twitter := if pf.Twitter ≠ "" then pf.Twitter else p.Twitter }

/-- A pointer argument of `AssignEditable`, by what the loop reads through it:
`nil`, the pointer of the receiver itself, or a pointer to another profile,
which the call never writes and which is held by the profile it points to. -/
inductive ProfilePtr where
  | nil
  | receiver
  | other (pf : Profile)
deriving DecidableEq, Repr

/-- The method `Profile.AssignEditable` (profile.go 130-166): the receiver after
the call. A `nil` argument is skipped; an argument that is the receiver is read
as the receiver stands when the loop reaches it; any other argument is read as
the profile it points to. -/
def Profile.AssignEditable (p : core.Profile) : List ProfilePtr → core.Profile
  | [] => p
  | ProfilePtr.nil :: rest => Profile.AssignEditable p rest
  | ProfilePtr.receiver :: rest =>
    Profile.AssignEditable (Profile.AssignEditable.assign p p) rest
  | ProfilePtr.other pf :: rest =>
    Profile.AssignEditable (Profile.AssignEditable.assign p pf) rest

/-- The profile an argument points to at the moment of the call, the receiver
being `p`; `none` for `nil`. -/
def ProfilePtr.atCall (p : Profile) : ProfilePtr → Option Profile
  | ProfilePtr.nil => none
  | ProfilePtr.receiver => some p
  | ProfilePtr.other pf => some pf

/-- The profile an argument points to when it is neither `nil` nor the
receiver; `none` for those two. -/
def ProfilePtr.notReceiver : ProfilePtr → Option Profile
  | ProfilePtr.nil => none
  | ProfilePtr.receiver => none
  | ProfilePtr.other pf => some pf

/-- The value of a field after an assignment of several profiles, in words: the
value of the field in the last argument that is not `nil` and in which the field
is not empty, or the value `orig` when there is no such argument. -/
def lastNonEmpty (field : Profile → String) (orig : String)
    (profiles : List (Option Profile)) : String :=
  match ((profiles.filterMap id).filter (fun pf => decide (field pf ≠ ""))).getLast? with
  | some pf => field pf
  | none => orig

/-- The accesses made when a call ends. -/
def Outcome.world : Outcome → World
  | Outcome.returned _ _ world => world
  | Outcome.nilDeref world => world

/-- The error a call returns; `none` also for a call that does not return. -/
def Outcome.err : Outcome → Option error
  | Outcome.returned _ err _ => err
  | Outcome.nilDeref _ => none

/-- Modelled from the spec: `Config.Set`, whose code is not among the sources,
as the write of one key of a key-value store. `World.configValue init w key` is
the value under `key` once the accesses of `w` are made, `init` being the value
under `key` before them: the value of the last `Config.Set` for `key`, if
any. -/
def World.configValue (init : Option String) (w : World) (key : String) : Option String :=
  w.foldl
    (fun acc e =>
      match e with
      | Effect.ConfigSet k v => if k = key then some v else acc
      | _ => acc)
    init

/-- The configuration keys that the methods of `ProfileRequests` set. -/
def editableKeys : List String :=
  ["profile.peername", "profile.name", "profile.email", "profile.description",
    "profile.homeurl", "profile.color", "profile.twitter", "profile.photo", "profile.thumb",
    "profile.poster"]

end core

/-! ## Sample values -/

namespace cmd

/-- A source that has every address, answering with content named `tag`; it is
neither local nor searchable. -/
def constSource (tag : String) : Namespace :=
  { ChildAddresses := fun _ => Except.ok { ref := tag }
    ChildDatasets := fun _ => Except.ok { ref := tag }
    Dataset := fun _ => Except.ok { ref := tag }
    Package := fun _ => Except.ok ({ ref := tag }, 0)
    lns := none
    Search := none }

/-- A source on which every call fails with `err`; it is neither local nor
searchable. -/
def failingSource (err : ExtError) : Namespace :=
  { ChildAddresses := fun _ => Except.error err
    ChildDatasets := fun _ => Except.error err
    Dataset := fun _ => Except.error err
    Package := fun _ => Except.error err
    lns := none
    Search := none }

/-- A source like `constSource tag` that is searchable, its search answering
every query with `found`. -/
def searchableSource (tag : String) (found : Except ExtError (List dataset.Dataset)) :
    Namespace :=
  { constSource tag with Search := some (fun _ _ _ => found) }

/-- A source like `constSource tag` whose dynamic type is `*lns.Namespace`, its
`Store` method answering with `store`. -/
def localSource (tag : String) (store : Except ExtError fs.Store) : Namespace :=
  { constSource tag with lns := some (fun _ => store) }

/-- A `downloadPackage` that answers with a store named after the key it is
given. -/
def sampleDownload (_ns : Namespace) (_adr : dataset.Address) (key : String) :
    Except Error fs.Store :=
  Except.ok { ref := "cache/" ++ key }

/-- An environment for `infoCmd.Run`: every non-empty argument parses to a
reference of that name, the repository knows the one dataset `me/local`, whose
path it fills in, and a request object is the `online` flag it is built
with. -/
def sampleInfoEnv : InfoEnv Bool Bool :=
  { ParseDataFormatString := fun s =>
      if s = "json" then Except.ok 1 else Except.error (ExtError.other "unknown format")
    JSONDataFormat := 1
    getRepo := fun _ => Except.ok { ref := "repo" }
    ParseDatasetRef := fun arg =>
      if arg = "" then Except.error (ExtError.other "malformed reference")
      else Except.ok { Peername := "", ProfileID := "", Name := arg, Path := "", Dataset := none }
    CanonicalizeDatasetRef := fun _ ref =>
      if ref.Name = "me/local" then
        ({ ref with ProfileID := "QmMe", Path := "/ipfs/QmLocal" }, none)
      else (ref, none)
    peerRequests := fun online => Except.ok online
    datasetRequests := fun online => Except.ok online }

end cmd

namespace core

/-- A profile with every field empty except the peername. -/
def profileNamed (peername : String) : Profile :=
  { ID := "", Created := 0, Updated := 0, Peername := peername, «Type» := 0, Email := "",
    Name := "", Description := "", HomeURL := "", Color := "", Thumb := "", Profile := "",
    Poster := "", Twitter := "" }

/-- An environment in which the remote node answers every call by writing the
profile named `remote` and returning the error `remote says no`, and in which
every local access succeeds. -/
def sampleEnv : Env :=
  { Call := fun _ _ _ _ _ => (profileNamed "remote", some "remote says no")
    RepoProfile := fun _ _ => Except.error "no profile"
    StorePut := fun _ _ filename _ _ => Except.ok ("/ipfs/" ++ filename)
    DecodeProfile := fun _ => Except.error "no profile"
    SaveConfig := fun _ => none
    jsonMarshal := fun _ => Except.ok []
    jsonUnmarshal := fun _ => Except.error "unexpected end of JSON input"
    DetectContentType := fun _ => "application/octet-stream" }

/-- An environment like `sampleEnv` in which every file is detected as a PNG
image. -/
def pngEnv : Env :=
  { sampleEnv with DetectContentType := fun _ => "image/png" }

/-- A profile with every field set to its own name followed by `tag`. -/
def profileTagged (tag : String) : Profile :=
  { ID := "id" ++ tag, Created := 1, Updated := 2, Peername := "peername" ++ tag, «Type» := 3,
    Email := "email" ++ tag, Name := "name" ++ tag, Description := "description" ++ tag,
    HomeURL := "homeurl" ++ tag, Color := "color" ++ tag, Thumb := "thumb" ++ tag,
    Profile := "profile" ++ tag, Poster := "poster" ++ tag, Twitter := "twitter" ++ tag }

/-- Parameters for a photo of `n` bytes, read without error. -/
def photoOfSize (n : Nat) : FileParams :=
  { Filename := "me.png", Data := some { data := List.replicate n 0, err := none } }

/-- Params for `SaveProfile` in which only the name is set. -/
def sampleEdit : Profile :=
  { profileNamed "" with Name := "Brendan" }

/-- A configuration history in which the email and the peername are set. -/
def sampleWorld : World :=
  [Effect.ConfigSet "profile.email" "old@qri.io", Effect.ConfigSet "profile.peername" "b5"]

end core

/-! ## Theorems: the namespace aggregator -/

namespace cmd

theorem ChildAddresses_skip (pre rest : List Namespace) (adr : dataset.Address)
    (h : ∀ x ∈ pre, ∃ e, x.ChildAddresses adr = Except.error e) :
    Namespaces.ChildAddresses (pre ++ rest) adr = Namespaces.ChildAddresses rest adr := by
  induction pre with
  | nil => rfl
  | cons x xs ih =>
    obtain ⟨e, he⟩ := h x (List.mem_cons_self x xs)
    have hxs : ∀ y ∈ xs, ∃ e, y.ChildAddresses adr = Except.error e :=
      fun y hy => h y (List.mem_cons_of_mem x hy)
    simp only [List.cons_append, Namespaces.ChildAddresses, he]
    exact ih hxs

theorem ChildDatasets_skip (pre rest : List Namespace) (adr : dataset.Address)
    (h : ∀ x ∈ pre, ∃ e, x.ChildDatasets adr = Except.error e) :
    Namespaces.ChildDatasets (pre ++ rest) adr = Namespaces.ChildDatasets rest adr := by
  induction pre with
  | nil => rfl
  | cons x xs ih =>
    obtain ⟨e, he⟩ := h x (List.mem_cons_self x xs)
    have hxs : ∀ y ∈ xs, ∃ e, y.ChildDatasets adr = Except.error e :=
      fun y hy => h y (List.mem_cons_of_mem x hy)
    simp only [List.cons_append, Namespaces.ChildDatasets, he]
    exact ih hxs

theorem Dataset_skip (pre rest : List Namespace) (adr : dataset.Address)
    (h : ∀ x ∈ pre, ∃ e, x.Dataset adr = Except.error e) :
    Namespaces.Dataset (pre ++ rest) adr = Namespaces.Dataset rest adr := by
  induction pre with
  | nil => rfl
  | cons x xs ih =>
    obtain ⟨e, he⟩ := h x (List.mem_cons_self x xs)
    have hxs : ∀ y ∈ xs, ∃ e, y.Dataset adr = Except.error e :=
      fun y hy => h y (List.mem_cons_of_mem x hy)
    simp only [List.cons_append, Namespaces.Dataset, he]
    exact ih hxs

theorem Package_skip (pre rest : List Namespace) (adr : dataset.Address)
    (h : ∀ x ∈ pre, ∃ e, x.Package adr = Except.error e) :
    Namespaces.Package (pre ++ rest) adr = Namespaces.Package rest adr := by
  induction pre with
  | nil => rfl
  | cons x xs ih =>
    obtain ⟨e, he⟩ := h x (List.mem_cons_self x xs)
    have hxs : ∀ y ∈ xs, ∃ e, y.Package adr = Except.error e :=
      fun y hy => h y (List.mem_cons_of_mem x hy)
    simp only [List.cons_append, Namespaces.Package, he]
    exact ih hxs

/-- C1: each of `ChildAddresses`, `ChildDatasets`, `Dataset` and `Package` of an
aggregator returns the result of the first source, in registration order, whose
own call succeeds: when every source before `s` fails on the address and `s`
succeeds with `v`, the aggregator returns `v`, whatever the sources registered
after `s` are. -/
theorem Namespaces_first_success (pre post : List Namespace) (s : Namespace)
    (adr : dataset.Address) :
    (∀ v, (∀ x ∈ pre, ∃ e, x.ChildAddresses adr = Except.error e) →
        s.ChildAddresses adr = Except.ok v →
        Namespaces.ChildAddresses (pre ++ s :: post) adr = Except.ok v) ∧
    (∀ v, (∀ x ∈ pre, ∃ e, x.ChildDatasets adr = Except.error e) →
        s.ChildDatasets adr = Except.ok v →
        Namespaces.ChildDatasets (pre ++ s :: post) adr = Except.ok v) ∧
    (∀ v, (∀ x ∈ pre, ∃ e, x.Dataset adr = Except.error e) →
        s.Dataset adr = Except.ok v →
        Namespaces.Dataset (pre ++ s :: post) adr = Except.ok v) ∧
    (∀ v, (∀ x ∈ pre, ∃ e, x.Package adr = Except.error e) →
        s.Package adr = Except.ok v →
        Namespaces.Package (pre ++ s :: post) adr = Except.ok v) := by
  refine ⟨?_, ?_, ?_, ?_⟩
  · intro v hpre hs
    rw [ChildAddresses_skip pre (s :: post) adr hpre]
    simp only [Namespaces.ChildAddresses, hs]
  · intro v hpre hs
    rw [ChildDatasets_skip pre (s :: post) adr hpre]
    simp only [Namespaces.ChildDatasets, hs]
  · intro v hpre hs
    rw [Dataset_skip pre (s :: post) adr hpre]
    simp only [Namespaces.Dataset, hs]
  · intro v hpre hs
    rw [Package_skip pre (s :: post) adr hpre]
    simp only [Namespaces.Package, hs]

/-- A run of C1: behind a failing source, `A` and `B` both have the address
with different content, and each of the four methods returns the content of
`A`. -/
theorem Namespaces_first_success_witness :
    Namespaces.ChildAddresses
        [failingSource (ExtError.other "down"), constSource "A", constSource "B"] "X"
      = Except.ok { ref := "A" } ∧
    Namespaces.ChildDatasets
        [failingSource (ExtError.other "down"), constSource "A", constSource "B"] "X"
      = Except.ok { ref := "A" } ∧
    Namespaces.Dataset
        [failingSource (ExtError.other "down"), constSource "A", constSource "B"] "X"
      = Except.ok { ref := "A" } ∧
    Namespaces.Package
        [failingSource (ExtError.other "down"), constSource "A", constSource "B"] "X"
      = Except.ok ({ ref := "A" }, 0) :=
  have h := Namespaces_first_success [failingSource (ExtError.other "down")]
    [constSource "B"] (constSource "A") "X"
  ⟨h.1 _ (by simp [failingSource]) rfl, h.2.1 _ (by simp [failingSource]) rfl,
    h.2.2.1 _ (by simp [failingSource]) rfl, h.2.2.2 _ (by simp [failingSource]) rfl⟩

theorem ChildAddresses_fail_iff (n : List Namespace) (adr : dataset.Address) :
    Namespaces.ChildAddresses n adr = Except.error ErrNotFound ↔
      ∀ s ∈ n, ∃ e, s.ChildAddresses adr = Except.error e := by
  induction n with
  | nil => simp [Namespaces.ChildAddresses]
  | cons x xs ih =>
    cases hx : x.ChildAddresses adr with
    | ok v => simp [Namespaces.ChildAddresses, hx]
    | error e => simp [Namespaces.ChildAddresses, hx, ih]

theorem ChildAddresses_error_eq (n : List Namespace) (adr : dataset.Address) (e : Error)
    (h : Namespaces.ChildAddresses n adr = Except.error e) : e = ErrNotFound := by
  induction n with
  | nil => simpa [Namespaces.ChildAddresses, eq_comm] using h
  | cons x xs ih =>
    cases hx : x.ChildAddresses adr with
    | ok v => simp [Namespaces.ChildAddresses, hx] at h
    | error e' =>
      simp only [Namespaces.ChildAddresses, hx] at h
      exact ih h

theorem ChildDatasets_fail_iff (n : List Namespace) (adr : dataset.Address) :
    Namespaces.ChildDatasets n adr = Except.error ErrNotFound ↔
      ∀ s ∈ n, ∃ e, s.ChildDatasets adr = Except.error e := by
  induction n with
  | nil => simp [Namespaces.ChildDatasets]
  | cons x xs ih =>
    cases hx : x.ChildDatasets adr with
    | ok v => simp [Namespaces.ChildDatasets, hx]
    | error e => simp [Namespaces.ChildDatasets, hx, ih]

theorem ChildDatasets_error_eq (n : List Namespace) (adr : dataset.Address) (e : Error)
    (h : Namespaces.ChildDatasets n adr = Except.error e) : e = ErrNotFound := by
  induction n with
  | nil => simpa [Namespaces.ChildDatasets, eq_comm] using h
  | cons x xs ih =>
    cases hx : x.ChildDatasets adr with
    | ok v => simp [Namespaces.ChildDatasets, hx] at h
    | error e' =>
      simp only [Namespaces.ChildDatasets, hx] at h
      exact ih h

theorem Dataset_fail_iff (n : List Namespace) (adr : dataset.Address) :
    Namespaces.Dataset n adr = Except.error ErrNotFound ↔
      ∀ s ∈ n, ∃ e, s.Dataset adr = Except.error e := by
  induction n with
  | nil => simp [Namespaces.Dataset]
  | cons x xs ih =>
    cases hx : x.Dataset adr with
    | ok v => simp [Namespaces.Dataset, hx]
    | error e => simp [Namespaces.Dataset, hx, ih]

theorem Dataset_error_eq (n : List Namespace) (adr : dataset.Address) (e : Error)
    (h : Namespaces.Dataset n adr = Except.error e) : e = ErrNotFound := by
  induction n with
  | nil => simpa [Namespaces.Dataset, eq_comm] using h
  | cons x xs ih =>
    cases hx : x.Dataset adr with
    | ok v => simp [Namespaces.Dataset, hx] at h
    | error e' =>
      simp only [Namespaces.Dataset, hx] at h
      exact ih h

theorem Package_fail_iff (n : List Namespace) (adr : dataset.Address) :
    Namespaces.Package n adr = Except.error ErrNotFound ↔
      ∀ s ∈ n, ∃ e, s.Package adr = Except.error e := by
  induction n with
  | nil => simp [Namespaces.Package]
  | cons x xs ih =>
    cases hx : x.Package adr with
    | ok v => simp [Namespaces.Package, hx]
    | error e => simp [Namespaces.Package, hx, ih]

theorem Package_error_eq (n : List Namespace) (adr : dataset.Address) (e : Error)
    (h : Namespaces.Package n adr = Except.error e) : e = ErrNotFound := by
  induction n with
  | nil => simpa [Namespaces.Package, eq_comm] using h
  | cons x xs ih =>
    cases hx : x.Package adr with
    | ok v => simp [Namespaces.Package, hx] at h
    | error e' =>
      simp only [Namespaces.Package, hx] at h
      exact ih h

/-- C2: for every list of sources, the empty one included, and every address,
each of `ChildAddresses`, `ChildDatasets`, `Dataset` and `Package` of the
aggregator fails with `namespace.ErrNotFound` exactly when every source fails
on the address, and `namespace.ErrNotFound` is the only error it returns,
whatever errors the sources returned. -/
theorem Namespaces_not_found_iff (n : Namespaces) (adr : dataset.Address) :
    ((Namespaces.ChildAddresses n adr = Except.error ErrNotFound ↔
        ∀ s ∈ n, ∃ e, s.ChildAddresses adr = Except.error e) ∧
      ∀ e, Namespaces.ChildAddresses n adr = Except.error e → e = ErrNotFound) ∧
    ((Namespaces.ChildDatasets n adr = Except.error ErrNotFound ↔
        ∀ s ∈ n, ∃ e, s.ChildDatasets adr = Except.error e) ∧
      ∀ e, Namespaces.ChildDatasets n adr = Except.error e → e = ErrNotFound) ∧
    ((Namespaces.Dataset n adr = Except.error ErrNotFound ↔
        ∀ s ∈ n, ∃ e, s.Dataset adr = Except.error e) ∧
      ∀ e, Namespaces.Dataset n adr = Except.error e → e = ErrNotFound) ∧
    ((Namespaces.Package n adr = Except.error ErrNotFound ↔
        ∀ s ∈ n, ∃ e, s.Package adr = Except.error e) ∧
      ∀ e, Namespaces.Package n adr = Except.error e → e = ErrNotFound) :=
  ⟨⟨ChildAddresses_fail_iff n adr, ChildAddresses_error_eq n adr⟩,
    ⟨ChildDatasets_fail_iff n adr, ChildDatasets_error_eq n adr⟩,
    ⟨Dataset_fail_iff n adr, Dataset_error_eq n adr⟩,
    ⟨Package_fail_iff n adr, Package_error_eq n adr⟩⟩

/-! ### Search -/

theorem Search_loop_ok (query : String) (ns : List Namespace)
    (hok : ∀ s ∈ ns, ∀ f, s.Search = some f → ∃ ds, f query (-1) 0 = Except.ok ds)
    (found : Bool) (results : List dataset.Dataset) :
    Namespaces.Search.loop query ns found results =
      Sum.inr (found || ns.any (fun s => s.Search.isSome),
        results ++ ns.flatMap (searchResults query)) := by
  induction ns generalizing found results with
  | nil => simp [Namespaces.Search.loop]
  | cons x xs ih =>
    have hxs : ∀ s ∈ xs, ∀ f, s.Search = some f → ∃ ds, f query (-1) 0 = Except.ok ds :=
      fun s hs => hok s (List.mem_cons_of_mem x hs)
    cases hx : x.Search with
    | none =>
      simp [Namespaces.Search.loop, hx, ih hxs, searchResults]
    | some f =>
      obtain ⟨ds, hds⟩ := hok x (List.mem_cons_self x xs) f hx
      simp [Namespaces.Search.loop, hx, hds, ih hxs, searchResults]

theorem Search_loop_found (query : String) (ns : List Namespace) (found fd : Bool)
    (results r : List dataset.Dataset)
    (h : Namespaces.Search.loop query ns found results = Sum.inr (fd, r)) :
    fd = (found || ns.any (fun s => s.Search.isSome)) := by
  induction ns generalizing found results with
  | nil =>
    simp only [Namespaces.Search.loop, Sum.inr.injEq, Prod.mk.injEq] at h
    simp [h.1]
  | cons x xs ih =>
    cases hx : x.Search with
    | none =>
      simp only [Namespaces.Search.loop, hx] at h
      simpa [hx] using ih found results h
    | some f =>
      cases hf : f query (-1) 0 with
      | error e => simp [Namespaces.Search.loop, hx, hf] at h
      | ok ds =>
        simp only [Namespaces.Search.loop, hx, hf] at h
        simpa [hx] using ih true (results ++ ds) h

theorem Search_loop_none (query : String) (ns : List Namespace)
    (hnone : ∀ s ∈ ns, s.Search = none) (found : Bool) (results : List dataset.Dataset) :
    Namespaces.Search.loop query ns found results = Sum.inr (found, results) := by
  induction ns with
  | nil => rfl
  | cons x xs ih =>
    have hx : x.Search = none := hnone x (List.mem_cons_self x xs)
    simp only [Namespaces.Search.loop, hx]
    exact ih (fun s hs => hnone s (List.mem_cons_of_mem x hs))

theorem Search_loop_fail (query : String) (pre post : List Namespace) (s : Namespace)
    (f : String → Int → Int → Except ExtError (List dataset.Dataset)) (e : ExtError)
    (hpre : ∀ x ∈ pre, ∀ g, x.Search = some g → ∃ ds, g query (-1) 0 = Except.ok ds)
    (hs : s.Search = some f) (he : f query (-1) 0 = Except.error e)
    (found : Bool) (results : List dataset.Dataset) :
    Namespaces.Search.loop query (pre ++ s :: post) found results =
      Sum.inl (results ++ pre.flatMap (searchResults query), e) := by
  induction pre generalizing found results with
  | nil => simp [Namespaces.Search.loop, hs, he]
  | cons x xs ih =>
    have hxs : ∀ y ∈ xs, ∀ g, y.Search = some g → ∃ ds, g query (-1) 0 = Except.ok ds :=
      fun y hy => hpre y (List.mem_cons_of_mem x hy)
    cases hx : x.Search with
    | none =>
      simp [Namespaces.Search.loop, hx, ih hxs, searchResults]
    | some g =>
      obtain ⟨ds, hds⟩ := hpre x (List.mem_cons_self x xs) g hx
      simp [Namespaces.Search.loop, hx, hds, ih hxs, searchResults]

/-- C3: for a non-empty list of sources of which at least one is searchable and
in which the search of every searchable source succeeds, `Search` returns,
without error, the results of the searchable sources joined in registration
order, a source that is not searchable adding nothing. -/
theorem Namespaces_Search_union (ns : Namespaces) (query : String)
    (hne : ns ≠ [])
    (hsome : ∃ s ∈ ns, s.Search ≠ none)
    (hok : ∀ s ∈ ns, ∀ f, s.Search = some f → ∃ ds, f query (-1) 0 = Except.ok ds) :
    Namespaces.Search ns query = (some (ns.flatMap (searchResults query)), none) := by
  have hlen : ¬ ns.length = 0 := by simpa using hne
  have hany : ns.any (fun s => s.Search.isSome) = true := by
    obtain ⟨s, hs, hsn⟩ := hsome
    exact List.any_eq_true.mpr ⟨s, hs, Option.isSome_iff_ne_none.mpr hsn⟩
  simp [Namespaces.Search, hlen, Search_loop_ok query ns hok, hany]

/-- A run of C3: in `[A, B]` only `B` is searchable, and the search returns the
results of `B` and no error. -/
theorem Namespaces_Search_union_witness :
    Namespaces.Search
        [constSource "A",
          searchableSource "B" (Except.ok [{ ref := "b1" }, { ref := "b2" }])] "q"
      = (some [{ ref := "b1" }, { ref := "b2" }], none) :=
  Namespaces_Search_union
    [constSource "A", searchableSource "B" (Except.ok [{ ref := "b1" }, { ref := "b2" }])]
    "q" (by simp)
    ⟨searchableSource "B" (Except.ok [{ ref := "b1" }, { ref := "b2" }]), by simp,
      by simp [searchableSource]⟩
    (by
      intro s hs f hf
      simp only [List.mem_cons, List.mem_singleton, List.not_mem_nil, or_false] at hs
      rcases hs with rfl | rfl
      · simp [constSource] at hf
      · simp only [searchableSource, Option.some.injEq] at hf
        subst hf
        exact ⟨_, rfl⟩)

/-- C4: `Search` fails with the no-namespaces error exactly when the aggregator
is empty, and with the not-searchable error exactly when the aggregator is not
empty and none of its members is searchable; the two errors differ; and an
aggregator without a searchable member returns an error and no results. -/
theorem Namespaces_Search_errors (ns : Namespaces) (query : String) :
    ((Namespaces.Search ns query).2 = some errNoNamespaces ↔ ns = []) ∧
    ((Namespaces.Search ns query).2 = some errNotSearchable ↔
      ns ≠ [] ∧ ∀ s ∈ ns, s.Search = none) ∧
    errNoNamespaces ≠ errNotSearchable ∧
    ((∀ s ∈ ns, s.Search = none) →
      (Namespaces.Search ns query).1 = none ∧ (Namespaces.Search ns query).2 ≠ none) := by
  have hdiff : errNoNamespaces ≠ errNotSearchable := by
    simp only [errNoNamespaces, errNotSearchable, ne_eq, Error.errorf.injEq]
    decide
  refine ⟨?_, ?_, hdiff, ?_⟩
  · constructor
    · intro h
      by_contra hne
      have hlen : ¬ ns.length = 0 := by simpa using hne
      simp only [Namespaces.Search, hlen, if_false] at h
      cases hl : Namespaces.Search.loop query ns false [] with
      | inl x =>
        obtain ⟨r, e⟩ := x
        simp [hl, errNoNamespaces] at h
      | inr x =>
        obtain ⟨fd, r⟩ := x
        cases fd with
        | false =>
          simp only [hl, Bool.not_false, if_true, Option.some.injEq] at h
          exact hdiff h.symm
        | true => simp [hl] at h
    · intro h
      subst h
      simp [Namespaces.Search]
  · constructor
    · intro h
      by_cases hne : ns = []
      · subst hne
        simp only [Namespaces.Search, List.length_nil, if_true, Option.some.injEq] at h
        exact absurd h hdiff
      · refine ⟨hne, ?_⟩
        have hlen : ¬ ns.length = 0 := by simpa using hne
        simp only [Namespaces.Search, hlen, if_false] at h
        cases hl : Namespaces.Search.loop query ns false [] with
        | inl x =>
          obtain ⟨r, e⟩ := x
          simp [hl, errNotSearchable] at h
        | inr x =>
          obtain ⟨fd, r⟩ := x
          cases fd with
          | true => simp [hl] at h
          | false =>
            have hf := Search_loop_found query ns false false [] r hl
            simp only [Bool.false_or] at hf
            intro s hs
            by_contra hsn
            have : ns.any (fun s => s.Search.isSome) = true :=
              List.any_eq_true.mpr ⟨s, hs, Option.isSome_iff_ne_none.mpr hsn⟩
            rw [this] at hf
            exact Bool.noConfusion hf
    · rintro ⟨hne, hnone⟩
      have hlen : ¬ ns.length = 0 := by simpa using hne
      simp [Namespaces.Search, hlen, Search_loop_none query ns hnone]
  · intro hnone
    by_cases hne : ns = []
    · subst hne
      simp [Namespaces.Search]
    · have hlen : ¬ ns.length = 0 := by simpa using hne
      simp [Namespaces.Search, hlen, Search_loop_none query ns hnone]

/-- C5: when the search of a searchable source fails and the search of every
searchable source registered before it succeeds, `Search` returns the error of
that source, unchanged, together with the results gathered so far, whatever the
sources registered after it are. -/
theorem Namespaces_Search_propagates (pre post : List Namespace) (s : Namespace)
    (f : String → Int → Int → Except ExtError (List dataset.Dataset)) (e : ExtError)
    (query : String)
    (hpre : ∀ x ∈ pre, ∀ g, x.Search = some g → ∃ ds, g query (-1) 0 = Except.ok ds)
    (hs : s.Search = some f) (he : f query (-1) 0 = Except.error e) :
    Namespaces.Search (pre ++ s :: post) query =
      (some (pre.flatMap (searchResults query)), some (Error.ext e)) := by
  have hlen : ¬ (pre ++ s :: post).length = 0 := by simp
  simp [Namespaces.Search, hlen, Search_loop_fail query pre post s f e hpre hs he]

/-- A run of C5: the third source fails its search with `boom`; the search
returns `boom` and the results of the second source, and the fourth source,
whose search would succeed, adds nothing. -/
theorem Namespaces_Search_propagates_witness :
    Namespaces.Search
        [constSource "A", searchableSource "B" (Except.ok [{ ref := "b1" }]),
          searchableSource "C" (Except.error (ExtError.other "boom")),
          searchableSource "D" (Except.ok [{ ref := "d1" }])] "q"
      = (some [{ ref := "b1" }], some (Error.ext (ExtError.other "boom"))) :=
  Namespaces_Search_propagates
    [constSource "A", searchableSource "B" (Except.ok [{ ref := "b1" }])]
    [searchableSource "D" (Except.ok [{ ref := "d1" }])]
    (searchableSource "C" (Except.error (ExtError.other "boom")))
    (fun _ _ _ => Except.error (ExtError.other "boom")) (ExtError.other "boom") "q"
    (by
      intro x hx g hg
      simp only [List.mem_cons, List.mem_singleton, List.not_mem_nil, or_false] at hx
      rcases hx with rfl | rfl
      · simp [constSource] at hg
      · simp only [searchableSource, Option.some.injEq] at hg
        subst hg
        exact ⟨_, rfl⟩)
    rfl rfl

/-! ### Store -/

theorem Store_skip
    (downloadPackage : Namespace → dataset.Address → String → Except Error fs.Store)
    (pre rest : List Namespace) (adr : dataset.Address)
    (h : ∀ x ∈ pre, ∃ e, x.Dataset adr = Except.error e) :
    Namespaces.Store downloadPackage (pre ++ rest) adr =
      Namespaces.Store downloadPackage rest adr := by
  induction pre with
  | nil => rfl
  | cons x xs ih =>
    obtain ⟨e, he⟩ := h x (List.mem_cons_self x xs)
    have hxs : ∀ y ∈ xs, ∃ e, y.Dataset adr = Except.error e :=
      fun y hy => h y (List.mem_cons_of_mem x hy)
    simp only [List.cons_append, Namespaces.Store, he]
    exact ih hxs

/-- C6: `Store` picks the first source, in registration order, whose
`Dataset(adr)` succeeds. When that source is the local variant the result is
the result of its own `Store(adr)` and `downloadPackage` plays no part;
otherwise the result is the result of `downloadPackage` for that source, the
address and the text of the address as key. When no source has the dataset the
result is `namespace.ErrNotFound`. -/
theorem Namespaces_Store_selects
    (downloadPackage : Namespace → dataset.Address → String → Except Error fs.Store)
    (adr : dataset.Address) :
    (∀ (pre post : List Namespace) (s : Namespace),
      (∀ x ∈ pre, ∃ e, x.Dataset adr = Except.error e) →
      (∃ d, s.Dataset adr = Except.ok d) →
      Namespaces.Store downloadPackage (pre ++ s :: post) adr =
        match s.lns with
        | some lcl => (lcl adr).mapError Error.ext
        | none => downloadPackage s adr (dataset.Address.String adr)) ∧
    (∀ n : Namespaces, (∀ x ∈ n, ∃ e, x.Dataset adr = Except.error e) →
      Namespaces.Store downloadPackage n adr = Except.error ErrNotFound) := by
  constructor
  · intro pre post s hpre hs
    obtain ⟨d, hd⟩ := hs
    rw [Store_skip downloadPackage pre (s :: post) adr hpre]
    simp only [Namespaces.Store, hd]
    cases hl : s.lns with
    | some lcl =>
      simp only
      cases lcl adr <;> rfl
    | none =>
      simp only
      cases downloadPackage s adr (dataset.Address.String adr) <;> rfl
  · intro n hn
    have h := Store_skip downloadPackage n [] adr hn
    rw [List.append_nil] at h
    rw [h]
    rfl

/-- A run of C6: behind a source without the dataset, a local source hands back
its own store although a later source has the dataset too; a source that is not
local has its package downloaded under the text of the address; and a list in
which no source has the dataset gives `namespace.ErrNotFound`. -/
theorem Namespaces_Store_selects_witness :
    Namespaces.Store sampleDownload
        [failingSource ExtError.ErrNotFound,
          localSource "L" (Except.ok { ref := "local" }), constSource "R"] "me/data"
      = Except.ok { ref := "local" } ∧
    Namespaces.Store sampleDownload
        [failingSource ExtError.ErrNotFound, constSource "R",
          localSource "L" (Except.ok { ref := "local" })] "me/data"
      = Except.ok { ref := "cache/me/data" } ∧
    Namespaces.Store sampleDownload
        [failingSource ExtError.ErrNotFound, failingSource (ExtError.other "down")] "me/data"
      = Except.error ErrNotFound :=
  ⟨(Namespaces_Store_selects sampleDownload "me/data").1
      [failingSource ExtError.ErrNotFound] [constSource "R"]
      (localSource "L" (Except.ok { ref := "local" }))
      (by simp [failingSource]) ⟨_, rfl⟩,
    (Namespaces_Store_selects sampleDownload "me/data").1
      [failingSource ExtError.ErrNotFound] [localSource "L" (Except.ok { ref := "local" })]
      (constSource "R")
      (by simp [failingSource]) ⟨_, rfl⟩,
    (Namespaces_Store_selects sampleDownload "me/data").2
      [failingSource ExtError.ErrNotFound, failingSource (ExtError.other "down")]
      (by simp [failingSource])⟩

/-! ### The info command -/

theorem infoCmd_online_loop {PR DR : Type} (env : InfoEnv PR DR) (r : repo.Repo)
    (args : List String)
    (h : ∀ arg ∈ args, ∃ ref ref', env.ParseDatasetRef arg = Except.ok ref ∧
      env.CanonicalizeDatasetRef r ref = (ref', none))
    (online : Bool) :
    infoCmd.Run.online env r args online =
      Except.ok (online || args.any (canonicalizesToEmptyPath env r)) := by
  induction args generalizing online with
  | nil => simp [infoCmd.Run.online]
  | cons a rest ih =>
    obtain ⟨ref, ref', hp, hc⟩ := h a (List.mem_cons_self a rest)
    have hrest : ∀ arg ∈ rest, ∃ ref ref', env.ParseDatasetRef arg = Except.ok ref ∧
        env.CanonicalizeDatasetRef r ref = (ref', none) :=
      fun arg harg => h arg (List.mem_cons_of_mem a harg)
    simp only [infoCmd.Run.online, hp, hc, ih hrest, List.any_cons,
      canonicalizesToEmptyPath]
    by_cases hpath : ref'.Path = "" <;> simp [hpath]

/-- C10: when every argument parses and canonicalizes without error, the info
command ends its first loop with `online` true exactly when the reference of at
least one argument canonicalizes to an empty `Path`, and false exactly when
every one canonicalizes to a non-empty `Path`; and, once the format check has
passed and the repository is at hand, that one value of `online` is the
argument of both `peerRequests` and `datasetRequests`. -/
theorem infoCmd_online_decision {PR DR : Type} (env : InfoEnv PR DR) (r : repo.Repo)
    (args : List String)
    (h : ∀ arg ∈ args, ∃ ref ref', env.ParseDatasetRef arg = Except.ok ref ∧
      env.CanonicalizeDatasetRef r ref = (ref', none)) :
    ∃ online : Bool,
      infoCmd.Run.online env r args false = Except.ok online ∧
      (online = true ↔ ∃ arg ∈ args, ∃ ref, env.ParseDatasetRef arg = Except.ok ref ∧
        (env.CanonicalizeDatasetRef r ref).1.Path = "") ∧
      (online = false ↔ ∀ arg ∈ args, ∀ ref, env.ParseDatasetRef arg = Except.ok ref →
        (env.CanonicalizeDatasetRef r ref).1.Path ≠ "") ∧
      (∀ outformat, infoCmd.Run.checkFormat env outformat = none →
        env.getRepo false = Except.ok r →
        infoCmd.Run env outformat args =
          match env.peerRequests online with
          | Except.error err => Except.error (Error.ext err)
          | Except.ok pr =>
            match env.datasetRequests online with
            | Except.error err => Except.error (Error.ext err)
            | Except.ok req => Except.ok (pr, req)) := by
  have hloop := infoCmd_online_loop env r args h false
  rw [Bool.false_or] at hloop
  have htrue : args.any (canonicalizesToEmptyPath env r) = true ↔
      ∃ arg ∈ args, ∃ ref, env.ParseDatasetRef arg = Except.ok ref ∧
        (env.CanonicalizeDatasetRef r ref).1.Path = "" := by
    rw [List.any_eq_true]
    constructor
    · rintro ⟨arg, harg, hc⟩
      refine ⟨arg, harg, ?_⟩
      unfold canonicalizesToEmptyPath at hc
      cases hp : env.ParseDatasetRef arg with
      | error e => simp [hp] at hc
      | ok ref =>
        rw [hp] at hc
        exact ⟨ref, rfl, of_decide_eq_true hc⟩
    · rintro ⟨arg, harg, ref, hp, hpath⟩
      refine ⟨arg, harg, ?_⟩
      simp [canonicalizesToEmptyPath, hp, hpath]
  refine ⟨args.any (canonicalizesToEmptyPath env r), hloop, htrue, ?_, ?_⟩
  · rw [← Bool.not_eq_true, htrue]
    constructor
    · intro hno arg harg ref hp hpath
      exact hno ⟨arg, harg, ref, hp, hpath⟩
    · rintro hall ⟨arg, harg, ref, hp, hpath⟩
      exact hall arg harg ref hp hpath
  · intro outformat hfmt hrepo
    simp only [infoCmd.Run, hfmt, hrepo, hloop]

/-- A run of C10: of the two arguments `me/local` and `b5/comics` the second
canonicalizes to an empty `Path`, and both request objects are built online. -/
theorem infoCmd_online_decision_witness :
    ∃ online : Bool,
      infoCmd.Run.online sampleInfoEnv { ref := "repo" } ["me/local", "b5/comics"] false
        = Except.ok online ∧
      online = true ∧
      infoCmd.Run sampleInfoEnv "" ["me/local", "b5/comics"] = Except.ok (true, true) := by
  obtain ⟨online, hrun, htrue, _, hreq⟩ :=
    infoCmd_online_decision sampleInfoEnv { ref := "repo" } ["me/local", "b5/comics"]
      (by
        intro arg harg
        simp only [List.mem_cons, List.mem_singleton, List.not_mem_nil, or_false] at harg
        rcases harg with rfl | rfl
        · exact ⟨_, _, rfl, rfl⟩
        · exact ⟨_, _, rfl, rfl⟩)
  have hon : online = true :=
    htrue.mpr ⟨"b5/comics", by simp, _, rfl, rfl⟩
  refine ⟨online, hrun, hon, ?_⟩
  rw [hreq "" rfl rfl, hon]
  rfl

end cmd

/-! ## Theorems: profile requests -/

namespace core

/-- C7: `NewProfileRequests` called with both a repository and a client panics:
it returns no `ProfileRequests` value. -/
theorem NewProfileRequests_both_panics (r : Option repo.Repo) (cli : Option rpc.Client)
    (hr : r ≠ none) (hcli : cli ≠ none) :
    NewProfileRequests r cli =
        Except.error "both repo and client supplied to NewProfileRequests" ∧
      ∀ pr, NewProfileRequests r cli ≠ Except.ok pr := by
  have h : NewProfileRequests r cli =
      Except.error "both repo and client supplied to NewProfileRequests" := by
    simp [NewProfileRequests, hr, hcli]
  refine ⟨h, ?_⟩
  intro pr hpr
  rw [h] at hpr
  exact Except.noConfusion hpr

/-- A run of C7 with the repository `repo` and the client `node`. -/
theorem NewProfileRequests_both_panics_witness :
    NewProfileRequests (some { ref := "repo" }) (some { ref := "node" }) =
        Except.error "both repo and client supplied to NewProfileRequests" ∧
      ∀ pr, NewProfileRequests (some { ref := "repo" }) (some { ref := "node" })
        ≠ Except.ok pr :=
  NewProfileRequests_both_panics (some { ref := "repo" }) (some { ref := "node" })
    (by simp) (by simp)

/-- C8, as stated, fails: called with neither a repository nor a client,
`NewProfileRequests` does not fail but returns a value in which neither is
set. -/
theorem NewProfileRequests_neither_returns :
    NewProfileRequests none none = Except.ok { repo := none, cli := none } ∧
      ¬ ∃ v, NewProfileRequests none none = Except.error v := by
  have h : NewProfileRequests none none = Except.ok { repo := none, cli := none } := by
    simp [NewProfileRequests]
  refine ⟨h, ?_⟩
  rintro ⟨v, hv⟩
  rw [h] at hv
  exact Except.noConfusion hv

/-- C8, amended: `NewProfileRequests` fails exactly when both a repository and a
client are given; called with one of them or with neither it returns the value
that holds the two arguments as they were given; and every value it returns
holds its arguments and has at most one of `repo` and `cli` set. -/
theorem NewProfileRequests_at_most_one (r : Option repo.Repo) (cli : Option rpc.Client) :
    ((∃ v, NewProfileRequests r cli = Except.error v) ↔ (r ≠ none ∧ cli ≠ none)) ∧
    (¬ (r ≠ none ∧ cli ≠ none) →
      NewProfileRequests r cli = Except.ok { repo := r, cli := cli }) ∧
    (∀ pr, NewProfileRequests r cli = Except.ok pr →
      pr.repo = r ∧ pr.cli = cli ∧ ¬ (pr.repo ≠ none ∧ pr.cli ≠ none)) := by
  by_cases hb : r ≠ none ∧ cli ≠ none
  · have herr : NewProfileRequests r cli =
        Except.error "both repo and client supplied to NewProfileRequests" := by
      unfold NewProfileRequests
      exact if_pos hb
    refine ⟨⟨fun _ => hb, fun _ => ⟨_, herr⟩⟩, fun hnb => absurd hb hnb, ?_⟩
    intro pr hpr
    rw [herr] at hpr
    exact Except.noConfusion hpr
  · have hok : NewProfileRequests r cli = Except.ok { repo := r, cli := cli } := by
      unfold NewProfileRequests
      exact if_neg hb
    refine ⟨⟨?_, fun h => absurd h hb⟩, fun _ => hok, ?_⟩
    · rintro ⟨v, hv⟩
      rw [hok] at hv
      exact Except.noConfusion hv
    · intro pr hpr
      rw [hok, Except.ok.injEq] at hpr
      subst hpr
      exact ⟨rfl, rfl, hb⟩

/-- A run of the amended C8: with a repository alone, with a client alone and
with neither, construction returns the value holding its arguments. -/
theorem NewProfileRequests_at_most_one_witness :
    NewProfileRequests (some { ref := "repo" }) none =
        Except.ok { repo := some { ref := "repo" }, cli := none } ∧
    NewProfileRequests none (some { ref := "node" }) =
        Except.ok { repo := none, cli := some { ref := "node" } } ∧
    NewProfileRequests none none = Except.ok { repo := none, cli := none } :=
  ⟨(NewProfileRequests_at_most_one (some { ref := "repo" }) none).2.1 (by simp),
    (NewProfileRequests_at_most_one none (some { ref := "node" })).2.1 (by simp),
    (NewProfileRequests_at_most_one none none).2.1 (by simp)⟩

/-- In forwarding mode `GetProfile`, `SaveProfile`, `SetProfilePhoto` and
`SetPosterPhoto` make one access, the rpc call to the method of their own name
with the parameter and result they were given, and return what it answers. -/
theorem forwarding_of_cli (env : Env) (rp : Option repo.Repo) (cli : rpc.Client)
    (res : Profile) (w : World) :
    (∀ inp, ProfileRequests.GetProfile env { repo := rp, cli := some cli } inp res w =
      Outcome.returned
        (env.Call w cli "ProfileRequests.GetProfile" (Args.bool inp) res).1
        (env.Call w cli "ProfileRequests.GetProfile" (Args.bool inp) res).2
        (w ++ [Effect.Call cli "ProfileRequests.GetProfile" (Args.bool inp) res])) ∧
    (∀ p, ProfileRequests.SaveProfile env { repo := rp, cli := some cli } p res w =
      Outcome.returned
        (env.Call w cli "ProfileRequests.SaveProfile" (Args.profile p) res).1
        (env.Call w cli "ProfileRequests.SaveProfile" (Args.profile p) res).2
        (w ++ [Effect.Call cli "ProfileRequests.SaveProfile" (Args.profile p) res])) ∧
    (∀ p, ProfileRequests.SetProfilePhoto env { repo := rp, cli := some cli } p res w =
      Outcome.returned
        (env.Call w cli "ProfileRequests.SetProfilePhoto" (Args.file p) res).1
        (env.Call w cli "ProfileRequests.SetProfilePhoto" (Args.file p) res).2
        (w ++ [Effect.Call cli "ProfileRequests.SetProfilePhoto" (Args.file p) res])) ∧
    (∀ p, ProfileRequests.SetPosterPhoto env { repo := rp, cli := some cli } p res w =
      Outcome.returned
        (env.Call w cli "ProfileRequests.SetPosterPhoto" (Args.file p) res).1
        (env.Call w cli "ProfileRequests.SetPosterPhoto" (Args.file p) res).2
        (w ++ [Effect.Call cli "ProfileRequests.SetPosterPhoto" (Args.file p) res])) :=
  ⟨fun _ => rfl, fun _ => rfl, fun _ => rfl, fun _ => rfl⟩

/-- C9 at its failing input: on a `ProfileRequests` in forwarding mode,
`SavePeername` makes no rpc call; it sets `profile.peername` in the local
configuration, saves the configuration, and returns the error of that save
instead of the error of the remote node. -/
theorem SavePeername_forwarding_runs_locally :
    ProfileRequests.SavePeername sampleEnv { repo := none, cli := some { ref := "node" } }
        (some (profileNamed "b5")) (profileNamed "") [] =
      Outcome.returned (profileNamed "") none
        [Effect.ConfigSet "profile.peername" "b5", Effect.SaveConfig] ∧
    ProfileRequests.SaveProfile sampleEnv { repo := none, cli := some { ref := "node" } }
        (some (profileNamed "b5")) (profileNamed "") [] =
      Outcome.returned (profileNamed "remote") (some "remote says no")
        [Effect.Call { ref := "node" } "ProfileRequests.SaveProfile"
          (Args.profile (some (profileNamed "b5"))) (profileNamed "")] := by
  constructor
  · simp [ProfileRequests.SavePeername, profileNamed, sampleEnv]
  · rfl

/-! ### AssignEditable -/

theorem lastNonEmpty_cons (field : Profile → String) (orig : String) (a : Option Profile)
    (rest : List (Option Profile)) :
    lastNonEmpty field orig (a :: rest) =
      lastNonEmpty field
        (match a with
          | none => orig
          | some pf => if field pf ≠ "" then field pf else orig) rest := by
  cases a with
  | none => simp [lastNonEmpty]
  | some pf =>
    by_cases h : field pf = ""
    · simp [lastNonEmpty, h]
    · have hcons : (List.filterMap id (some pf :: rest)).filter
            (fun pf => decide (field pf ≠ "")) =
          pf :: (List.filterMap id rest).filter (fun pf => decide (field pf ≠ "")) := by
        rw [List.filterMap_cons_some (by rfl : id (some pf) = some pf)]
        exact List.filter_cons_of_pos (by simpa using h)
      simp only [lastNonEmpty, hcons, List.getLast?_cons, ne_eq, h, not_false_eq_true, if_true]
      cases ((List.filterMap id rest).filter (fun pf => decide (¬ field pf = ""))).getLast? <;> rfl

theorem AssignEditable_field (field : Profile → String)
    (hassign : ∀ p pf, field (Profile.AssignEditable.assign p pf) =
      if field pf ≠ "" then field pf else field p)
    (p : Profile) (profiles : List ProfilePtr) :
    field (Profile.AssignEditable p profiles) =
      lastNonEmpty field (field p) (profiles.map ProfilePtr.notReceiver) := by
  induction profiles generalizing p with
  | nil => simp [Profile.AssignEditable, lastNonEmpty]
  | cons a rest ih =>
    rw [List.map_cons, lastNonEmpty_cons]
    cases a with
    | nil => simpa [Profile.AssignEditable, ProfilePtr.notReceiver] using ih p
    | receiver =>
      have hself : field (Profile.AssignEditable.assign p p) = field p := by
        rw [hassign]
        split_ifs <;> rfl
      simp only [Profile.AssignEditable, ProfilePtr.notReceiver]
      rw [ih, hself]
    | other pf =>
      simp only [Profile.AssignEditable, ProfilePtr.notReceiver]
      rw [ih, hassign]

theorem AssignEditable_frame (p : Profile) (profiles : List ProfilePtr) :
    (Profile.AssignEditable p profiles).ID = p.ID ∧
    (Profile.AssignEditable p profiles).Created = p.Created ∧
    (Profile.AssignEditable p profiles).Updated = p.Updated ∧
    (Profile.AssignEditable p profiles).«Type» = p.«Type» := by
  induction profiles generalizing p with
  | nil => simp [Profile.AssignEditable]
  | cons a rest ih =>
    cases a with
    | nil => simpa [Profile.AssignEditable] using ih p
    | receiver =>
      simpa [Profile.AssignEditable] using ih (Profile.AssignEditable.assign p p)
    | other pf =>
      simpa [Profile.AssignEditable] using ih (Profile.AssignEditable.assign p pf)

theorem notReceiver_eq_atCall (p : Profile) (profiles : List ProfilePtr)
    (h : ∀ a ∈ profiles, a ≠ ProfilePtr.receiver) :
    profiles.map ProfilePtr.notReceiver = profiles.map (ProfilePtr.atCall p) := by
  apply List.map_congr_left
  intro a ha
  cases a with
  | nil => rfl
  | receiver => exact absurd rfl (h _ ha)
  | other pf => rfl

/-- C11, as stated, fails: in `p.AssignEditable(q, p)` the last argument that is
not `nil` is the receiver, whose peername at the call is `orig`, and it is not
empty; yet after the call the peername of the receiver is `x`, the peername of
`q`, because the loop reads the receiver as the first step left it. -/
theorem AssignEditable_receiver_argument :
    (Profile.AssignEditable (profileNamed "orig")
        [ProfilePtr.other (profileNamed "x"), ProfilePtr.receiver]).Peername = "x" ∧
    lastNonEmpty Profile.Peername (profileNamed "orig").Peername
        ([ProfilePtr.other (profileNamed "x"), ProfilePtr.receiver].map
          (ProfilePtr.atCall (profileNamed "orig"))) = "orig" ∧
    (Profile.AssignEditable (profileNamed "orig")
        [ProfilePtr.other (profileNamed "x"), ProfilePtr.receiver]).Peername ≠
      lastNonEmpty Profile.Peername (profileNamed "orig").Peername
        ([ProfilePtr.other (profileNamed "x"), ProfilePtr.receiver].map
          (ProfilePtr.atCall (profileNamed "orig"))) := by
  decide

/-- C11, amended: after `p.AssignEditable(profiles...)`, for every list of
pointers, each of the ten editable fields of the receiver holds the value of
that field in the last argument that is neither `nil` nor the receiver itself
and in which the field is not empty, or the value the receiver had when there
is no such argument. When no argument is the receiver these are the arguments
that are not `nil`, read as they are at the call. -/
theorem AssignEditable_last_nonempty (p : Profile) (profiles : List ProfilePtr) :
    (Profile.AssignEditable p profiles).Peername =
      lastNonEmpty Profile.Peername p.Peername (profiles.map ProfilePtr.notReceiver) ∧
    (Profile.AssignEditable p profiles).Email =
      lastNonEmpty Profile.Email p.Email (profiles.map ProfilePtr.notReceiver) ∧
    (Profile.AssignEditable p profiles).Name =
      lastNonEmpty Profile.Name p.Name (profiles.map ProfilePtr.notReceiver) ∧
    (Profile.AssignEditable p profiles).Description =
      lastNonEmpty Profile.Description p.Description (profiles.map ProfilePtr.notReceiver) ∧
    (Profile.AssignEditable p profiles).HomeURL =
      lastNonEmpty Profile.HomeURL p.HomeURL (profiles.map ProfilePtr.notReceiver) ∧
    (Profile.AssignEditable p profiles).Color =
      lastNonEmpty Profile.Color p.Color (profiles.map ProfilePtr.notReceiver) ∧
    (Profile.AssignEditable p profiles).Thumb =
      lastNonEmpty Profile.Thumb p.Thumb (profiles.map ProfilePtr.notReceiver) ∧
    (Profile.AssignEditable p profiles).Profile =
      lastNonEmpty Profile.Profile p.Profile (profiles.map ProfilePtr.notReceiver) ∧
    (Profile.AssignEditable p profiles).Poster =
      lastNonEmpty Profile.Poster p.Poster (profiles.map ProfilePtr.notReceiver) ∧
    (Profile.AssignEditable p profiles).Twitter =
      lastNonEmpty Profile.Twitter p.Twitter (profiles.map ProfilePtr.notReceiver) ∧
    ((∀ a ∈ profiles, a ≠ ProfilePtr.receiver) →
      profiles.map ProfilePtr.notReceiver = profiles.map (ProfilePtr.atCall p)) :=
  ⟨AssignEditable_field Profile.Peername (fun _ _ => rfl) p profiles,
    AssignEditable_field Profile.Email (fun _ _ => rfl) p profiles,
    AssignEditable_field Profile.Name (fun _ _ => rfl) p profiles,
    AssignEditable_field Profile.Description (fun _ _ => rfl) p profiles,
    AssignEditable_field Profile.HomeURL (fun _ _ => rfl) p profiles,
    AssignEditable_field Profile.Color (fun _ _ => rfl) p profiles,
    AssignEditable_field Profile.Thumb (fun _ _ => rfl) p profiles,
    AssignEditable_field Profile.Profile (fun _ _ => rfl) p profiles,
    AssignEditable_field Profile.Poster (fun _ _ => rfl) p profiles,
    AssignEditable_field Profile.Twitter (fun _ _ => rfl) p profiles,
    notReceiver_eq_atCall p profiles⟩

/-- A run of the amended C11: in `p.AssignEditable(q, p, nil)` the receiver and
`nil` are passed over and the peername is that of `q`; and in
`p.AssignEditable(q, nil)`, where no argument is the receiver, the arguments
read are those of the call. -/
theorem AssignEditable_last_nonempty_witness :
    (Profile.AssignEditable (profileNamed "orig")
        [ProfilePtr.other (profileNamed "x"), ProfilePtr.receiver, ProfilePtr.nil]).Peername
      = "x" ∧
    [ProfilePtr.other (profileNamed "x"), ProfilePtr.nil].map ProfilePtr.notReceiver =
      [ProfilePtr.other (profileNamed "x"), ProfilePtr.nil].map
        (ProfilePtr.atCall (profileNamed "orig")) :=
  ⟨(AssignEditable_last_nonempty (profileNamed "orig")
      [ProfilePtr.other (profileNamed "x"), ProfilePtr.receiver, ProfilePtr.nil]).1,
    (AssignEditable_last_nonempty (profileNamed "orig")
      [ProfilePtr.other (profileNamed "x"), ProfilePtr.nil]).2.2.2.2.2.2.2.2.2.2
      (by decide)⟩

/-! ### The configuration keys that are set -/

theorem mem_ite_singleton (c : Prop) [Decidable c] (x a : Effect) :
    x ∈ (if c then [a] else []) ↔ c ∧ x = a := by
  by_cases h : c <;> simp [h]

theorem mem_sets (p : Profile) (key value : String) :
    Effect.ConfigSet key value ∈ ProfileRequests.SaveProfile.sets p ↔
      (p.Name ≠ "" ∧ key = "profile.name" ∧ value = p.Name) ∨
      (p.Email ≠ "" ∧ key = "profile.email" ∧ value = p.Email) ∨
      (p.Description ≠ "" ∧ key = "profile.description" ∧ value = p.Description) ∨
      (p.HomeURL ≠ "" ∧ key = "profile.homeurl" ∧ value = p.HomeURL) ∨
      (p.Color ≠ "" ∧ key = "profile.color" ∧ value = p.Color) ∨
      (p.Twitter ≠ "" ∧ key = "profile.twitter" ∧ value = p.Twitter) := by
  simp only [ProfileRequests.SaveProfile.sets, List.mem_append, mem_ite_singleton,
    Effect.ConfigSet.injEq, or_assoc]

theorem SaveProfile_local_world (env : Env) (rp : Option repo.Repo) (p res : Profile)
    (w : World) :
    ∃ t, (ProfileRequests.SaveProfile env { repo := rp, cli := none } (some p) res w).world =
        w ++ ProfileRequests.SaveProfile.sets p ++ t ∧
      ∀ k v, Effect.ConfigSet k v ∉ t := by
  unfold ProfileRequests.SaveProfile
  simp only
  cases env.DecodeProfile (w ++ ProfileRequests.SaveProfile.sets p) with
  | error e => exact ⟨[Effect.DecodeProfile], rfl, by simp⟩
  | ok resp =>
    exact ⟨[Effect.DecodeProfile, Effect.SaveConfig], by simp [Outcome.world], by simp⟩

theorem SavePeername_keys (env : Env) (r : ProfileRequests) (p : Option Profile)
    (res : Profile) (w : World) (key value : String)
    (h : Effect.ConfigSet key value ∈ (ProfileRequests.SavePeername env r p res w).world) :
    Effect.ConfigSet key value ∈ w ∨ key ∈ editableKeys := by
  unfold ProfileRequests.SavePeername at h
  split at h
  · exact Or.inl h
  · split at h
    · exact Or.inl h
    · simp only [Outcome.world, List.mem_append, List.mem_singleton, Effect.ConfigSet.injEq,
        reduceCtorEq, or_false] at h
      rcases h with h | h
      · exact Or.inl h
      · exact Or.inr (by simp [editableKeys, h.1])

theorem SaveProfile_keys (env : Env) (rp : Option repo.Repo) (p : Option Profile)
    (res : Profile) (w : World) (key value : String)
    (h : Effect.ConfigSet key value ∈
      (ProfileRequests.SaveProfile env { repo := rp, cli := none } p res w).world) :
    Effect.ConfigSet key value ∈ w ∨ key ∈ editableKeys := by
  cases p with
  | none => exact Or.inl h
  | some p =>
    obtain ⟨t, ht, hno⟩ := SaveProfile_local_world env rp p res w
    rw [ht] at h
    simp only [List.mem_append, mem_sets] at h
    rcases h with (h | h) | h
    · exact Or.inl h
    · right
      rcases h with h | h | h | h | h | h <;> simp [editableKeys, h.2.1]
    · exact absurd h (hno key value)

theorem SetProfilePhoto_keys (env : Env) (rp : Option repo.Repo) (p : Option FileParams)
    (res : Profile) (w : World) (key value : String)
    (h : Effect.ConfigSet key value ∈
      (ProfileRequests.SetProfilePhoto env { repo := rp, cli := none } p res w).world) :
    Effect.ConfigSet key value ∈ w ∨ key ∈ editableKeys := by
  unfold ProfileRequests.SetProfilePhoto at h
  simp only at h
  repeat' split at h
  all_goals
    simp only [Outcome.world, List.mem_append, List.mem_singleton, List.mem_cons,
      Effect.ConfigSet.injEq, reduceCtorEq, or_false, false_or, List.not_mem_nil] at h
  all_goals first
    | exact Or.inl h
    | (rcases h with h | h | h
       · exact Or.inl h
       · exact Or.inr (by simp [editableKeys, h.1])
       · exact Or.inr (by simp [editableKeys, h.1]))

theorem SetPosterPhoto_keys (env : Env) (rp : Option repo.Repo) (p : Option FileParams)
    (res : Profile) (w : World) (key value : String)
    (h : Effect.ConfigSet key value ∈
      (ProfileRequests.SetPosterPhoto env { repo := rp, cli := none } p res w).world) :
    Effect.ConfigSet key value ∈ w ∨ key ∈ editableKeys := by
  unfold ProfileRequests.SetPosterPhoto at h
  simp only at h
  repeat' split at h
  all_goals
    simp only [Outcome.world, List.mem_append, List.mem_singleton, List.mem_cons,
      Effect.ConfigSet.injEq, reduceCtorEq, or_false, false_or, List.not_mem_nil] at h
  all_goals first
    | exact Or.inl h
    | (rcases h with h | h
       · exact Or.inl h
       · exact Or.inr (by simp [editableKeys, h.1]))

/-- C12: the profile ID is not changed by an edit. `AssignEditable` leaves `ID`,
`Created`, `Updated` and `Type` of the receiver as they were, for any
arguments; and in local mode every `Config.Set` made by `SavePeername`,
`SaveProfile`, `SetProfilePhoto` or `SetPosterPhoto` has one of the ten editable
keys, of which `profile.id` is none. -/
theorem profile_ID_immutable (env : Env) (rp : Option repo.Repo) (res : Profile)
    (w : World) :
    (∀ (p : Profile) (profiles : List ProfilePtr),
      (Profile.AssignEditable p profiles).ID = p.ID ∧
      (Profile.AssignEditable p profiles).Created = p.Created ∧
      (Profile.AssignEditable p profiles).Updated = p.Updated ∧
      (Profile.AssignEditable p profiles).«Type» = p.«Type») ∧
    "profile.id" ∉ editableKeys ∧
    (∀ (p : Option Profile) (key value : String),
      Effect.ConfigSet key value ∈
        (ProfileRequests.SavePeername env { repo := rp, cli := none } p res w).world →
      Effect.ConfigSet key value ∈ w ∨ key ∈ editableKeys) ∧
    (∀ (p : Option Profile) (key value : String),
      Effect.ConfigSet key value ∈
        (ProfileRequests.SaveProfile env { repo := rp, cli := none } p res w).world →
      Effect.ConfigSet key value ∈ w ∨ key ∈ editableKeys) ∧
    (∀ (p : Option FileParams) (key value : String),
      Effect.ConfigSet key value ∈
        (ProfileRequests.SetProfilePhoto env { repo := rp, cli := none } p res w).world →
      Effect.ConfigSet key value ∈ w ∨ key ∈ editableKeys) ∧
    (∀ (p : Option FileParams) (key value : String),
      Effect.ConfigSet key value ∈
        (ProfileRequests.SetPosterPhoto env { repo := rp, cli := none } p res w).world →
      Effect.ConfigSet key value ∈ w ∨ key ∈ editableKeys) :=
  ⟨AssignEditable_frame, by decide,
    fun p key value => SavePeername_keys env _ p res w key value,
    fun p key value => SaveProfile_keys env rp p res w key value,
    fun p key value => SetProfilePhoto_keys env rp p res w key value,
    fun p key value => SetPosterPhoto_keys env rp p res w key value⟩

/-! ### Photo validation -/

theorem SetProfilePhoto_rejects (env : Env) (rp : Option repo.Repo) (fp : FileParams)
    (res : Profile) (w : World)
    (h : fp.Data = none ∨ ∃ rd, fp.Data = some rd ∧
      ((env.DetectContentType rd.data ≠ "image/jpeg" ∧
          env.DetectContentType rd.data ≠ "image/png") ∨ rd.data.length > 250000)) :
    ∃ msg, ProfileRequests.SetProfilePhoto env { repo := rp, cli := none } (some fp) res w =
      Outcome.returned res (some msg) w := by
  unfold ProfileRequests.SetProfilePhoto
  simp only
  rcases h with h | ⟨rd, hrd, h⟩
  · rw [h]
    exact ⟨_, rfl⟩
  · rw [hrd]
    simp only
    cases herr : rd.err with
    | some e => exact ⟨_, rfl⟩
    | none =>
      simp only
      by_cases ht : env.DetectContentType rd.data ≠ "image/jpeg" ∧
          env.DetectContentType rd.data ≠ "image/png"
      · rw [if_pos ht]
        exact ⟨_, rfl⟩
      · rw [if_neg ht]
        have hlen : rd.data.length > 250000 := by
          rcases h with h | h
          · exact absurd h ht
          · exact h
        rw [if_pos hlen]
        exact ⟨_, rfl⟩

theorem SetProfilePhoto_puts (env : Env) (r : repo.Repo) (fp : FileParams) (rd : Reader)
    (res : Profile) (w : World)
    (hrd : fp.Data = some rd) (herr : rd.err = none)
    (ht : env.DetectContentType rd.data = "image/jpeg" ∨
      env.DetectContentType rd.data = "image/png")
    (hlen : rd.data.length ≤ 250000) :
    ∃ res' err t,
      ProfileRequests.SetProfilePhoto env { repo := some r, cli := none } (some fp) res w =
        Outcome.returned res' err (w ++ Effect.StorePut r fp.Filename rd.data true :: t) := by
  unfold ProfileRequests.SetProfilePhoto
  simp only [hrd, herr]
  have ht' : ¬ (env.DetectContentType rd.data ≠ "image/jpeg" ∧
      env.DetectContentType rd.data ≠ "image/png") := by
    rintro ⟨h1, h2⟩
    rcases ht with ht | ht
    · exact h1 ht
    · exact h2 ht
  have hlen' : ¬ rd.data.length > 250000 := Nat.not_lt.mpr hlen
  rw [if_neg ht', if_neg hlen']
  cases env.StorePut w r fp.Filename rd.data true with
  | error e => exact ⟨_, _, [], rfl⟩
  | ok path =>
    have hw : w ++ [Effect.StorePut r fp.Filename rd.data true] ++
          [Effect.ConfigSet "profile.photo" path, Effect.ConfigSet "profile.thumb" path] ++
          [Effect.SaveConfig] =
        w ++ Effect.StorePut r fp.Filename rd.data true ::
          [Effect.ConfigSet "profile.photo" path, Effect.ConfigSet "profile.thumb" path,
            Effect.SaveConfig] := by simp
    exact ⟨_, _, _, congrArg _ hw⟩

theorem SetPosterPhoto_rejects (env : Env) (rp : Option repo.Repo) (fp : FileParams)
    (res : Profile) (w : World)
    (h : fp.Data = none ∨ ∃ rd, fp.Data = some rd ∧
      ((env.DetectContentType rd.data ≠ "image/jpeg" ∧
          env.DetectContentType rd.data ≠ "image/png") ∨ rd.data.length > 2000000)) :
    ∃ msg, ProfileRequests.SetPosterPhoto env { repo := rp, cli := none } (some fp) res w =
      Outcome.returned res (some msg) w := by
  unfold ProfileRequests.SetPosterPhoto
  simp only
  rcases h with h | ⟨rd, hrd, h⟩
  · rw [h]
    exact ⟨_, rfl⟩
  · rw [hrd]
    simp only
    cases herr : rd.err with
    | some e => exact ⟨_, rfl⟩
    | none =>
      simp only
      by_cases ht : env.DetectContentType rd.data ≠ "image/jpeg" ∧
          env.DetectContentType rd.data ≠ "image/png"
      · rw [if_pos ht]
        exact ⟨_, rfl⟩
      · rw [if_neg ht]
        have hlen : rd.data.length > 2000000 := by
          rcases h with h | h
          · exact absurd h ht
          · exact h
        rw [if_pos hlen]
        exact ⟨_, rfl⟩

theorem SetPosterPhoto_puts (env : Env) (r : repo.Repo) (fp : FileParams) (rd : Reader)
    (res : Profile) (w : World)
    (hrd : fp.Data = some rd) (herr : rd.err = none)
    (ht : env.DetectContentType rd.data = "image/jpeg" ∨
      env.DetectContentType rd.data = "image/png")
    (hlen : rd.data.length ≤ 2000000) :
    ∃ res' err t,
      ProfileRequests.SetPosterPhoto env { repo := some r, cli := none } (some fp) res w =
        Outcome.returned res' err (w ++ Effect.StorePut r fp.Filename rd.data true :: t) := by
  unfold ProfileRequests.SetPosterPhoto
  simp only [hrd, herr]
  have ht' : ¬ (env.DetectContentType rd.data ≠ "image/jpeg" ∧
      env.DetectContentType rd.data ≠ "image/png") := by
    rintro ⟨h1, h2⟩
    rcases ht with ht | ht
    · exact h1 ht
    · exact h2 ht
  have hlen' : ¬ rd.data.length > 2000000 := Nat.not_lt.mpr hlen
  rw [if_neg ht', if_neg hlen']
  cases env.StorePut w r fp.Filename rd.data true with
  | error e => exact ⟨_, _, [], rfl⟩
  | ok path =>
    have hw : w ++ [Effect.StorePut r fp.Filename rd.data true] ++
          [Effect.ConfigSet "profile.poster" path] ++
          [Effect.SaveConfig] =
        w ++ Effect.StorePut r fp.Filename rd.data true ::
          [Effect.ConfigSet "profile.poster" path,
            Effect.SaveConfig] := by simp
    exact ⟨_, _, _, congrArg _ hw⟩

/-- C14: in local mode `SetProfilePhoto` (limit 250000 bytes) and
`SetPosterPhoto` (limit 2000000 bytes) return an error, with the accesses made
and the result left as they were, whenever `Data` is `nil`, the detected
content type is neither `image/jpeg` nor `image/png`, or the data is longer than
the limit; data read without error, of a permitted type and no longer than the
limit, so also of exactly the limit, is put in the store of the repository. -/
theorem SetPhoto_validation (env : Env) (rp : Option repo.Repo) (fp : FileParams)
    (res : Profile) (w : World) :
    ((fp.Data = none ∨ ∃ rd, fp.Data = some rd ∧
        ((env.DetectContentType rd.data ≠ "image/jpeg" ∧
            env.DetectContentType rd.data ≠ "image/png") ∨ rd.data.length > 250000)) →
      ∃ msg, ProfileRequests.SetProfilePhoto env { repo := rp, cli := none } (some fp) res w =
        Outcome.returned res (some msg) w) ∧
    ((fp.Data = none ∨ ∃ rd, fp.Data = some rd ∧
        ((env.DetectContentType rd.data ≠ "image/jpeg" ∧
            env.DetectContentType rd.data ≠ "image/png") ∨ rd.data.length > 2000000)) →
      ∃ msg, ProfileRequests.SetPosterPhoto env { repo := rp, cli := none } (some fp) res w =
        Outcome.returned res (some msg) w) ∧
    (∀ (rd : Reader) (r : repo.Repo), rp = some r → fp.Data = some rd → rd.err = none →
      (env.DetectContentType rd.data = "image/jpeg" ∨
        env.DetectContentType rd.data = "image/png") →
      rd.data.length ≤ 250000 →
      ∃ res' err t,
        ProfileRequests.SetProfilePhoto env { repo := rp, cli := none } (some fp) res w =
          Outcome.returned res' err
            (w ++ Effect.StorePut r fp.Filename rd.data true :: t)) ∧
    (∀ (rd : Reader) (r : repo.Repo), rp = some r → fp.Data = some rd → rd.err = none →
      (env.DetectContentType rd.data = "image/jpeg" ∨
        env.DetectContentType rd.data = "image/png") →
      rd.data.length ≤ 2000000 →
      ∃ res' err t,
        ProfileRequests.SetPosterPhoto env { repo := rp, cli := none } (some fp) res w =
          Outcome.returned res' err
            (w ++ Effect.StorePut r fp.Filename rd.data true :: t)) := by
  refine ⟨SetProfilePhoto_rejects env rp fp res w, SetPosterPhoto_rejects env rp fp res w,
    ?_, ?_⟩
  · intro rd r hr hrd herr ht hlen
    subst hr
    exact SetProfilePhoto_puts env r fp rd res w hrd herr ht hlen
  · intro rd r hr hrd herr ht hlen
    subst hr
    exact SetPosterPhoto_puts env r fp rd res w hrd herr ht hlen

/-- A run of C14: a PNG of 250001 bytes is refused as a profile photo with
nothing put and nothing set, and one of exactly 250000 bytes is put in the
store; a PNG of exactly 2000000 bytes is put in the store as a poster. -/
theorem SetPhoto_validation_witness :
    (∃ msg,
      ProfileRequests.SetProfilePhoto pngEnv { repo := some { ref := "repo" }, cli := none }
          (some (photoOfSize 250001)) (profileNamed "b5") sampleWorld =
        Outcome.returned (profileNamed "b5") (some msg) sampleWorld) ∧
    (∃ res' err t,
      ProfileRequests.SetProfilePhoto pngEnv { repo := some { ref := "repo" }, cli := none }
          (some (photoOfSize 250000)) (profileNamed "b5") sampleWorld =
        Outcome.returned res' err
          (sampleWorld ++
            Effect.StorePut { ref := "repo" } "me.png" (List.replicate 250000 0) true :: t)) ∧
    (∃ res' err t,
      ProfileRequests.SetPosterPhoto pngEnv { repo := some { ref := "repo" }, cli := none }
          (some (photoOfSize 2000000)) (profileNamed "b5") sampleWorld =
        Outcome.returned res' err
          (sampleWorld ++
            Effect.StorePut { ref := "repo" } "me.png" (List.replicate 2000000 0) true :: t)) :=
  ⟨(SetPhoto_validation pngEnv (some { ref := "repo" }) (photoOfSize 250001)
      (profileNamed "b5") sampleWorld).1
      (Or.inr ⟨{ data := List.replicate 250001 0, err := none }, rfl,
        Or.inr (Nat.lt_of_lt_of_eq (by norm_num : 250000 < 250001)
          (List.length_replicate 250001 (0 : UInt8)).symm)⟩),
    (SetPhoto_validation pngEnv (some { ref := "repo" }) (photoOfSize 250000)
      (profileNamed "b5") sampleWorld).2.2.1
      { data := List.replicate 250000 0, err := none } { ref := "repo" } rfl rfl rfl
      (Or.inr rfl) (Nat.le_of_eq (List.length_replicate 250000 (0 : UInt8))),
    (SetPhoto_validation pngEnv (some { ref := "repo" }) (photoOfSize 2000000)
      (profileNamed "b5") sampleWorld).2.2.2
      { data := List.replicate 2000000 0, err := none } { ref := "repo" } rfl rfl rfl
      (Or.inr rfl) (Nat.le_of_eq (List.length_replicate 2000000 (0 : UInt8)))⟩

/-! ### SaveProfile -/

theorem configValue_append (init : Option String) (a b : World) (key : String) :
    World.configValue init (a ++ b) key =
      World.configValue (World.configValue init a key) b key := by
  simp [World.configValue, List.foldl_append]

theorem configValue_ite (init : Option String) (c : Prop) [Decidable c] (k v key : String) :
    World.configValue init (if c then [Effect.ConfigSet k v] else []) key =
      if c ∧ k = key then some v else init := by
  by_cases h : c <;> simp [World.configValue, h]

theorem configValue_of_no_set (init : Option String) (t : World) (key : String)
    (h : ∀ k v, Effect.ConfigSet k v ∉ t) : World.configValue init t key = init := by
  induction t generalizing init with
  | nil => rfl
  | cons e rest ih =>
    have hrest : ∀ k v, Effect.ConfigSet k v ∉ rest :=
      fun k v hm => h k v (List.mem_cons_of_mem e hm)
    cases e with
    | ConfigSet k v => exact absurd (List.mem_cons_self _ _) (h k v)
    | _ => simpa [World.configValue] using ih _ hrest

theorem configValue_SaveProfile (env : Env) (rp : Option repo.Repo) (p res : Profile)
    (w : World) (init : Option String) (key : String) :
    World.configValue init
        (ProfileRequests.SaveProfile env { repo := rp, cli := none } (some p) res w).world key =
      World.configValue (World.configValue init w key) (ProfileRequests.SaveProfile.sets p)
        key := by
  obtain ⟨t, ht, hno⟩ := SaveProfile_local_world env rp p res w
  rw [ht, configValue_append, configValue_append, configValue_of_no_set _ t key hno]

theorem configValue_sets_Name (init : Option String) (p : Profile) :
    World.configValue init (ProfileRequests.SaveProfile.sets p) "profile.name" =
      if p.Name ≠ "" then some p.Name else init := by
  simp only [ProfileRequests.SaveProfile.sets, configValue_append, configValue_ite]
  simp

theorem configValue_sets_Email (init : Option String) (p : Profile) :
    World.configValue init (ProfileRequests.SaveProfile.sets p) "profile.email" =
      if p.Email ≠ "" then some p.Email else init := by
  simp only [ProfileRequests.SaveProfile.sets, configValue_append, configValue_ite]
  simp

theorem configValue_sets_Description (init : Option String) (p : Profile) :
    World.configValue init (ProfileRequests.SaveProfile.sets p) "profile.description" =
      if p.Description ≠ "" then some p.Description else init := by
  simp only [ProfileRequests.SaveProfile.sets, configValue_append, configValue_ite]
  simp

theorem configValue_sets_HomeURL (init : Option String) (p : Profile) :
    World.configValue init (ProfileRequests.SaveProfile.sets p) "profile.homeurl" =
      if p.HomeURL ≠ "" then some p.HomeURL else init := by
  simp only [ProfileRequests.SaveProfile.sets, configValue_append, configValue_ite]
  simp

theorem configValue_sets_Color (init : Option String) (p : Profile) :
    World.configValue init (ProfileRequests.SaveProfile.sets p) "profile.color" =
      if p.Color ≠ "" then some p.Color else init := by
  simp only [ProfileRequests.SaveProfile.sets, configValue_append, configValue_ite]
  simp

theorem configValue_sets_Twitter (init : Option String) (p : Profile) :
    World.configValue init (ProfileRequests.SaveProfile.sets p) "profile.twitter" =
      if p.Twitter ≠ "" then some p.Twitter else init := by
  simp only [ProfileRequests.SaveProfile.sets, configValue_append, configValue_ite]
  simp

theorem configValue_sets_other (init : Option String) (p : Profile) (key : String)
    (h1 : key ≠ "profile.name") (h2 : key ≠ "profile.email")
    (h3 : key ≠ "profile.description") (h4 : key ≠ "profile.homeurl")
    (h5 : key ≠ "profile.color") (h6 : key ≠ "profile.twitter") :
    World.configValue init (ProfileRequests.SaveProfile.sets p) key = init := by
  simp only [ProfileRequests.SaveProfile.sets, configValue_append, configValue_ite]
  simp [Ne.symm h1, Ne.symm h2, Ne.symm h3, Ne.symm h4, Ne.symm h5, Ne.symm h6]

theorem SaveProfile_mem (env : Env) (rp : Option repo.Repo) (p res : Profile) (w : World)
    (key value : String) :
    Effect.ConfigSet key value ∈
        (ProfileRequests.SaveProfile env { repo := rp, cli := none } (some p) res w).world ↔
      Effect.ConfigSet key value ∈ w ∨
      (p.Name ≠ "" ∧ key = "profile.name" ∧ value = p.Name) ∨
      (p.Email ≠ "" ∧ key = "profile.email" ∧ value = p.Email) ∨
      (p.Description ≠ "" ∧ key = "profile.description" ∧ value = p.Description) ∨
      (p.HomeURL ≠ "" ∧ key = "profile.homeurl" ∧ value = p.HomeURL) ∨
      (p.Color ≠ "" ∧ key = "profile.color" ∧ value = p.Color) ∨
      (p.Twitter ≠ "" ∧ key = "profile.twitter" ∧ value = p.Twitter) := by
  obtain ⟨t, ht, hno⟩ := SaveProfile_local_world env rp p res w
  rw [ht, List.mem_append, List.mem_append, mem_sets]
  constructor
  · rintro ((h | h) | h)
    · exact Or.inl h
    · exact Or.inr h
    · exact absurd h (hno key value)
  · rintro (h | h)
    · exact Or.inl (Or.inl h)
    · exact Or.inl (Or.inr h)

/-- C15: in local mode with params that are not `nil`, `SaveProfile` makes a
`Config.Set` for exactly those of `Name`, `Email`, `Description`, `HomeURL`,
`Color` and `Twitter` that are not empty in the params, each with the value of
the params: afterwards each of the six keys holds the value of the params when
that value is not empty and the value it held before otherwise, and every
other key, `profile.peername` and the photo, thumb and poster keys among them,
holds the value it held before. With `nil` params it returns an error and makes
no access. -/
theorem SaveProfile_local_frame (env : Env) (rp : Option repo.Repo) (res : Profile)
    (w : World) :
    (∀ p : Profile,
      (∀ key value,
        Effect.ConfigSet key value ∈
            (ProfileRequests.SaveProfile env { repo := rp, cli := none } (some p) res w).world ↔
          Effect.ConfigSet key value ∈ w ∨
          (p.Name ≠ "" ∧ key = "profile.name" ∧ value = p.Name) ∨
          (p.Email ≠ "" ∧ key = "profile.email" ∧ value = p.Email) ∨
          (p.Description ≠ "" ∧ key = "profile.description" ∧ value = p.Description) ∨
          (p.HomeURL ≠ "" ∧ key = "profile.homeurl" ∧ value = p.HomeURL) ∨
          (p.Color ≠ "" ∧ key = "profile.color" ∧ value = p.Color) ∨
          (p.Twitter ≠ "" ∧ key = "profile.twitter" ∧ value = p.Twitter)) ∧
      (∀ init, World.configValue init
          (ProfileRequests.SaveProfile env { repo := rp, cli := none } (some p) res w).world
          "profile.name" =
        if p.Name ≠ "" then some p.Name else World.configValue init w "profile.name") ∧
      (∀ init, World.configValue init
          (ProfileRequests.SaveProfile env { repo := rp, cli := none } (some p) res w).world
          "profile.email" =
        if p.Email ≠ "" then some p.Email else World.configValue init w "profile.email") ∧
      (∀ init, World.configValue init
          (ProfileRequests.SaveProfile env { repo := rp, cli := none } (some p) res w).world
          "profile.description" =
        if p.Description ≠ "" then some p.Description else World.configValue init w "profile.description") ∧
      (∀ init, World.configValue init
          (ProfileRequests.SaveProfile env { repo := rp, cli := none } (some p) res w).world
          "profile.homeurl" =
        if p.HomeURL ≠ "" then some p.HomeURL else World.configValue init w "profile.homeurl") ∧
      (∀ init, World.configValue init
          (ProfileRequests.SaveProfile env { repo := rp, cli := none } (some p) res w).world
          "profile.color" =
        if p.Color ≠ "" then some p.Color else World.configValue init w "profile.color") ∧
      (∀ init, World.configValue init
          (ProfileRequests.SaveProfile env { repo := rp, cli := none } (some p) res w).world
          "profile.twitter" =
        if p.Twitter ≠ "" then some p.Twitter else World.configValue init w "profile.twitter") ∧
      (∀ init key,
        key ∉ ["profile.name", "profile.email", "profile.description", "profile.homeurl",
          "profile.color", "profile.twitter"] →
        World.configValue init
            (ProfileRequests.SaveProfile env { repo := rp, cli := none } (some p) res w).world
            key =
          World.configValue init w key)) ∧
    ProfileRequests.SaveProfile env { repo := rp, cli := none } none res w =
      Outcome.returned res (some "profile required for update") w := by
  refine ⟨fun p => ⟨SaveProfile_mem env rp p res w, ?_, ?_, ?_, ?_, ?_, ?_, ?_⟩, rfl⟩
  · intro init
    rw [configValue_SaveProfile, configValue_sets_Name]
  · intro init
    rw [configValue_SaveProfile, configValue_sets_Email]
  · intro init
    rw [configValue_SaveProfile, configValue_sets_Description]
  · intro init
    rw [configValue_SaveProfile, configValue_sets_HomeURL]
  · intro init
    rw [configValue_SaveProfile, configValue_sets_Color]
  · intro init
    rw [configValue_SaveProfile, configValue_sets_Twitter]
  · intro init key hkey
    simp only [List.mem_cons, List.mem_singleton, List.not_mem_nil, or_false, not_or] at hkey
    rw [configValue_SaveProfile]
    exact configValue_sets_other _ p key hkey.1 hkey.2.1 hkey.2.2.1 hkey.2.2.2.1
      hkey.2.2.2.2.1 hkey.2.2.2.2.2

/-- A run of C15: with the email and the peername set before and params in
which only the name is set, the name is set to the value of the params, and the
email and the peername keep the values they had. -/
theorem SaveProfile_local_frame_witness :
    World.configValue none
        (ProfileRequests.SaveProfile sampleEnv { repo := none, cli := none } (some sampleEdit)
          (profileNamed "") sampleWorld).world "profile.name" = some "Brendan" ∧
    World.configValue none
        (ProfileRequests.SaveProfile sampleEnv { repo := none, cli := none } (some sampleEdit)
          (profileNamed "") sampleWorld).world "profile.email" = some "old@qri.io" ∧
    World.configValue none
        (ProfileRequests.SaveProfile sampleEnv { repo := none, cli := none } (some sampleEdit)
          (profileNamed "") sampleWorld).world "profile.peername" = some "b5" :=
  have h := (SaveProfile_local_frame sampleEnv none (profileNamed "") sampleWorld).1 sampleEdit
  ⟨h.2.1 none, h.2.2.1 none, h.2.2.2.2.2.2.2 none "profile.peername" (by decide)⟩

end core

/-! ## Theorems: the fallback of the aggregator -/

namespace cmd

/-- C13, as stated, fails: the first source fails with an error that is not
not-found, and each of `ChildAddresses`, `ChildDatasets` and `Dataset` returns
the success of the source after it instead of that error. -/
theorem Namespaces_hard_error_shadowed :
    Namespaces.ChildAddresses
        [failingSource (ExtError.other "disk failure"), constSource "B"] "X"
      = Except.ok { ref := "B" } ∧
    Namespaces.ChildDatasets
        [failingSource (ExtError.other "disk failure"), constSource "B"] "X"
      = Except.ok { ref := "B" } ∧
    Namespaces.Dataset
        [failingSource (ExtError.other "disk failure"), constSource "B"] "X"
      = Except.ok { ref := "B" } ∧
    (failingSource (ExtError.other "disk failure")).Dataset "X"
      = Except.error (ExtError.other "disk failure") ∧
    ExtError.other "disk failure" ≠ ExtError.ErrNotFound :=
  ⟨rfl, rfl, rfl, rfl, by decide⟩

/-- C13, amended: in `ChildAddresses`, `ChildDatasets` and `Dataset` the outcome
of a source is treated two ways: a success is returned, and an error, not-found
or any other, is dropped and the sources after it decide the result; when no
source is left the result is `namespace.ErrNotFound`. -/
theorem Namespaces_two_way_fallback (x : Namespace) (rest : List Namespace)
    (adr : dataset.Address) :
    ((∀ v, x.ChildAddresses adr = Except.ok v →
        Namespaces.ChildAddresses (x :: rest) adr = Except.ok v) ∧
      (∀ e, x.ChildAddresses adr = Except.error e →
        Namespaces.ChildAddresses (x :: rest) adr = Namespaces.ChildAddresses rest adr)) ∧
    ((∀ v, x.ChildDatasets adr = Except.ok v →
        Namespaces.ChildDatasets (x :: rest) adr = Except.ok v) ∧
      (∀ e, x.ChildDatasets adr = Except.error e →
        Namespaces.ChildDatasets (x :: rest) adr = Namespaces.ChildDatasets rest adr)) ∧
    ((∀ v, x.Dataset adr = Except.ok v →
        Namespaces.Dataset (x :: rest) adr = Except.ok v) ∧
      (∀ e, x.Dataset adr = Except.error e →
        Namespaces.Dataset (x :: rest) adr = Namespaces.Dataset rest adr)) ∧
    (Namespaces.ChildAddresses [] adr = Except.error ErrNotFound ∧
      Namespaces.ChildDatasets [] adr = Except.error ErrNotFound ∧
      Namespaces.Dataset [] adr = Except.error ErrNotFound) := by
  refine ⟨⟨?_, ?_⟩, ⟨?_, ?_⟩, ⟨?_, ?_⟩, ⟨rfl, rfl, rfl⟩⟩
  · intro v h
    simp only [Namespaces.ChildAddresses, h]
  · intro e h
    simp only [Namespaces.ChildAddresses, h]
  · intro v h
    simp only [Namespaces.ChildDatasets, h]
  · intro e h
    simp only [Namespaces.ChildDatasets, h]
  · intro v h
    simp only [Namespaces.Dataset, h]
  · intro e h
    simp only [Namespaces.Dataset, h]

/-- A run of the amended C13: a source failing with `disk failure` is dropped,
and the result is that of the sources after it, here one that fails with
not-found, so that the aggregator answers not-found. -/
theorem Namespaces_two_way_fallback_witness :
    Namespaces.ChildAddresses
        [failingSource (ExtError.other "disk failure"), failingSource ExtError.ErrNotFound] "X"
      = Except.error ErrNotFound ∧
    Namespaces.ChildDatasets
        [failingSource (ExtError.other "disk failure"), failingSource ExtError.ErrNotFound] "X"
      = Except.error ErrNotFound ∧
    Namespaces.Dataset
        [failingSource (ExtError.other "disk failure"), failingSource ExtError.ErrNotFound] "X"
      = Except.error ErrNotFound :=
  have h := Namespaces_two_way_fallback (failingSource (ExtError.other "disk failure"))
    [failingSource ExtError.ErrNotFound] "X"
  ⟨h.1.2 _ rfl, h.2.1.2 _ rfl, h.2.2.1.2 _ rfl⟩

end cmd

end Qri
